import Mathlib

/-!
Verification development for the plotsrv repository.

The definitions below are a shallow embedding of the Python sources under
src/plotsrv: the in-memory view store (store.py), the renderer registry and
individual renderers (renderers/), the publish HTTP handler at payload level
(app.py), and the CSV tail-read helper of the file watcher (cli.py).
Python strings are modelled as Lean String / List Char, bytes as List Nat or
List Char where byte-level arithmetic does not matter, floats (timestamps)
as rationals, Python ints as Int/Nat, dicts as association lists, and
exceptions as Except/Option.  External collaborator libraries (bleach,
markdown, pandas, base64) are modelled as function parameters where a claim
depends on their presence or absence, never as concrete implementations.
-/

set_option maxRecDepth 4000

namespace Plotsrv

/-! ### Generic association-list dictionary (Python dict, insertion order) -/

def alistGet {α : Type} : List (String × α) → String → Option α
  | [], _ => none
  | (k, v) :: rest, key => if k = key then some v else alistGet rest key


def alistSet {α : Type} : List (String × α) → String → α → List (String × α)
  | [], key, v => [(key, v)]
  | (k, w) :: rest, key, v =>
      if k = key then (key, v) :: rest else (k, w) :: alistSet rest key v


/-! ### Character-list utilities shared by the renderer models -/

/-- Replace every occurrence of the single character `c` by the character
list `r` (the building block of the chained `str.replace` calls in the
Python `_escape_html` helpers, whose patterns are all single characters). -/
def replaceChar (c : Char) (r : List Char) : List Char → List Char
  | [] => []
  | x :: xs => (if x = c then r else [x]) ++ replaceChar c r xs


/-- `_escape_html` from the renderer modules: the chained single-character
replaces `& → &amp;`, `< → &lt;`, `> → &gt;`, `" → &quot;`, `' → &#39;`,
applied in the source order. -/
def escapeHtmlL (l : List Char) : List Char :=
  replaceChar '\'' "&#39;".data
    (replaceChar '"' "&quot;".data
      (replaceChar '>' "&gt;".data
        (replaceChar '<' "&lt;".data
          (replaceChar '&' "&amp;".data l))))


def escapeHtml (s : String) : String := ⟨escapeHtmlL s.data⟩


/-- `str.strip()` (default whitespace stripping). -/
def strTrim (s : String) : String :=
  ⟨((s.data.dropWhile Char.isWhitespace).reverse.dropWhile Char.isWhitespace).reverse⟩


/-- `str.lower()`. -/
def strLower (s : String) : String := ⟨s.data.map Char.toLower⟩


/-! ### Substring scanning

`startsWithSeq pat l` holds when `pat` is an initial segment of `l`;
`containsSeq pat l` when `pat` occurs contiguously anywhere in `l`.
These are the executable notions of "the output contains the byte
sequence `<script`" used by the sanitizer claims. -/

def startsWithSeq : List Char → List Char → Bool
  | [], _ => true
  | _ :: _, [] => false
  | p :: ps, x :: xs => p == x && startsWithSeq ps xs


def containsSeq (pat : List Char) : List Char → Bool
  | [] => startsWithSeq pat []
  | x :: xs => startsWithSeq pat (x :: xs) || containsSeq pat xs


/-- The two-character pattern `<s`. -/
def ltS : List Char := ['<', 's']


/-- Last-character test used at segment boundaries. -/
def endsWithLt : List Char → Bool
  | [] => false
  | [x] => x == '<'
  | _ :: y :: ys => endsWithLt (y :: ys)


/-! ### Data model: Python values, truncation records, render results

`Obj` is the shallow embedding of the untyped Python payloads moved
around by the store and the renderers: strings, bytes, ints, bools,
None, JSON-ish dicts and lists, pandas DataFrames (kept as their raw
columns/rows lists), and arbitrary other objects tagged by `raw`. -/

inductive Obj : Type where
  | pstr (s : String)
  | pbytes (bs : List Nat)
  | pint (n : Int)
  | pbool (b : Bool)
  | pnone
  | pdict (entries : List (String × Obj))
  | plist (items : List Obj)
  | pdf (cols : List Obj) (rows : List Obj)
  | raw (tag : String)


/-- `Truncation` from artifacts.py: `truncated`, optional `reason`,
optional `details` map. -/
structure Truncation : Type where
  truncated : Bool
  reason : Option String := none
  details : Option (List (String × Obj)) := none


/-- `RenderResult` from renderers/base.py. -/
structure RenderResult : Type where
  kind : String
  html : String
  mime : String := "text/html"
  truncation : Option Truncation := none
  meta : Option (List (String × Obj)) := none


/-- `TextLimits` from renderers/limits.py. -/
structure TextLimits : Type where
  max_chars : Nat := 50000
  max_lines : Option Nat := none


def DEFAULT_TEXT_LIMITS : TextLimits := {}


/-- Split into lines keeping the terminator, modelling
`str.splitlines(True)` for text whose line terminator is `\n`
(the only terminator relevant to this code base). -/
def splitKeepNl : List Char → List (List Char)
  | [] => []
  | x :: xs =>
      if x = '\n' then
        ['\n'] :: splitKeepNl xs
      else
        match splitKeepNl xs with
        | [] => [[x]]
        | l :: ls =>
            if xs = [] then [[x]]
            else (x :: l) :: ls


def endsWithNl (l : List Char) : Bool :=
  match l.getLast? with
  | some c => c == '\n'
  | none => false


/-- `truncate_text` from renderers/limits.py: optional line cap first,
then the character cap; a fired cap appends a visible ellipsis and
produces a `Truncation` record. -/
def truncateText (text : String) (limits : TextLimits) : String × Truncation :=
  let originalChars := text.data.length
  let d0 : List (String × Obj) := [("original_chars", Obj.pint originalChars)]
  let lineStep : List Char × List (String × Obj) × Bool :=
    match limits.max_lines with
    | none => (text.data, d0, false)
    | some ml =>
        let maxLines := max 1 ml
        let lines := splitKeepNl text.data
        if lines.length > maxLines then
          ((lines.take maxLines).flatten,
           alistSet (alistSet (alistSet d0 "max_lines" (Obj.pint maxLines))
             "original_lines" (Obj.pint lines.length)) "truncated_by" (Obj.pstr "max_lines"),
           true)
        else (text.data, d0, false)
  let out1 := lineStep.1
  let d1 := lineStep.2.1
  let firedLines := lineStep.2.2
  let maxChars := max 1 limits.max_chars
  let charStep : List Char × List (String × Obj) × Bool :=
    if out1.length > maxChars then
      (out1.take maxChars,
       alistSet (alistSet d1 "max_chars" (Obj.pint maxChars)) "truncated_by"
         (match alistGet d1 "truncated_by" with
          | some v => v
          | none => Obj.pstr "max_chars"),
       true)
    else (out1, d1, false)
  let out2 := charStep.1
  let d2 := charStep.2.1
  let firedChars := charStep.2.2
  if firedLines || firedChars then
    let out3 := out2 ++ (if endsWithNl out2 then "…".data else "\n…".data)
    (⟨out3⟩, { truncated := true, reason := some "text truncated by limits", details := some d2 })
  else
    (text, { truncated := false })


/-! ### HTML renderer (renderers/html.py), safe mode, sanitizer missing

The claims quantify over the situation in which `import bleach` fails;
`_sanitize_html` then takes its except-branch and returns the fully
escaped source with `used_bleach = False`. -/

/-- The except-branch of html.py's `_sanitize_html` (bleach not importable). -/
def sanitizeHtmlNoBleach (html : String) : String × Bool :=
  (escapeHtml html, false)


/-- `HtmlRenderer.render` specialized to a string payload (so
`unsafe = False`: safe mode) with bleach unavailable. -/
def htmlRenderStrNoBleach (s : String) (viewId : String) : RenderResult :=
  let raw_html := s
  let tr := truncateText raw_html DEFAULT_TEXT_LIMITS
  let raw_html2 := tr.1
  let truncation := tr.2
  let sb := sanitizeHtmlNoBleach raw_html2
  let sanitized := sb.1
  let used_bleach := sb.2
  let html :=
    if used_bleach then
      "<div class='plotsrv-html plotsrv-html--sanitized'>" ++ sanitized ++ "</div>"
    else
      "<div class='plotsrv-html plotsrv-html--escaped'>" ++
      "<div class='note'>Install <code>bleach</code> to sanitize and render HTML safely. Showing escaped preview.</div>" ++
      ("<pre class='plotsrv-pre plotsrv-pre--wrap'>" ++ sanitized ++ "</pre>") ++
      "</div>"
  let note : Option String :=
    if used_bleach then none else some "bleach not installed; rendered escaped preview"
  { kind := "html", html := html, mime := "text/html", truncation := some truncation,
    meta := some [("view_id", Obj.pstr viewId),
                  ("mode", Obj.pstr (if used_bleach then "sanitized" else "escaped_preview")),
                  ("note", match note with | some n => Obj.pstr n | none => Obj.pnone)] }


/-! ### Markdown renderer (renderers/markdown.py), safe mode, sanitizer missing -/

/-- markdown.py's `_sanitize_html` when `import bleach` fails. -/
def mdSanitizeNoBleach (html : String) : String × Bool × Option String :=
  (html, false, some "install 'bleach' to enable safe markdown sanitization")


/-- `MarkdownRenderer.render` on a string payload (so
`unsafe_html = False`) with bleach unavailable.  The markdown library is
an external collaborator: `mdAvailable` models whether `import markdown`
succeeds, `mdConvert` its text-to-html conversion, and `mdErr` the text
of the exception when it fails. -/
def markdownRenderStrNoBleach (mdAvailable : Bool) (mdConvert : String → String)
    (mdErr : String) (s : String) (viewId : String) : RenderResult :=
  let text := s
  let unsafe_html := false
  let tr := truncateText text DEFAULT_TEXT_LIMITS
  let text2 := tr.1
  let truncation := tr.2
  if !mdAvailable then
    let html := "<pre style='white-space:pre-wrap'>" ++ escapeHtml text2 ++ "</pre>"
    { kind := "markdown", html := html, mime := "text/html", truncation := some truncation,
      meta := some [("view_id", Obj.pstr viewId), ("rendered", Obj.pbool false),
                    ("unsafe_html", Obj.pbool unsafe_html),
                    ("note", Obj.pstr ("markdown render failed: " ++ mdErr))] }
  else
    let html_body := mdConvert text2
    let sn := mdSanitizeNoBleach html_body
    let out_body := sn.1
    let sanitized := sn.2.1
    let meta_note := sn.2.2
    if !sanitized && (meta_note.getD "") ≠ "" then
      let html :=
        "<div class='artifact-warn'>" ++
        "Markdown sanitization is not available. " ++
        "Showing raw markdown (escaped). " ++
        escapeHtml (meta_note.getD "") ++
        "</div>" ++
        ("<pre style='white-space:pre-wrap'>" ++ escapeHtml text2 ++ "</pre>")
      { kind := "markdown", html := html, mime := "text/html", truncation := some truncation,
        meta := some [("view_id", Obj.pstr viewId), ("rendered", Obj.pbool false),
                      ("unsafe_html", Obj.pbool false),
                      ("note", match meta_note with | some n => Obj.pstr n | none => Obj.pnone)] }
    else
      let html := "<div class='plotsrv-markdown'>" ++ out_body ++ "</div>"
      { kind := "markdown", html := html, mime := "text/html", truncation := some truncation,
        meta := some ([("view_id", Obj.pstr viewId), ("rendered", Obj.pbool true),
                       ("unsafe_html", Obj.pbool unsafe_html),
                       ("sanitized", Obj.pbool (!unsafe_html))] ++
                      (match meta_note with | some n => [("note", Obj.pstr n)] | none => [])) }


/-- Look a key up in a render result's meta map. -/
def metaGet (rr : RenderResult) (key : String) : Option Obj :=
  match rr.meta with
  | some m => alistGet m key
  | none => none


/-! ### Renderer registry (renderers/registry.py)

A renderer is its `kind` label, its `can_render` predicate and its
`render` function; `render` returning `none` models a raised exception.
`choose_renderer` / `render_any` are generic over the registered list,
exactly as the Python registry is over `_RENDERERS`. -/

structure Renderer : Type where
  kind : String
  canRender : Obj → Bool
  render : Obj → String → Option RenderResult


/-- The tag-name allow-list of `_looks_like_html`. -/
def htmlStarters : List String :=
  ["<!doctype", "<html", "<div", "<span", "<p", "<pre", "<code", "<table",
   "<details", "<summary"]


/-- `_looks_like_html` from registry.py: trimmed text starts with `<`,
contains `>` in the first 2000 characters, and starts with a known tag
or has an alphabetic second character. -/
def looks_like_html (s : String) : Bool :=
  let t := s.data.dropWhile Char.isWhitespace
  match t with
  | [] => false
  | c :: rest =>
      if c = '<' then
        let head := (c :: rest).take 2000
        if head.contains '>' then
          htmlStarters.any (fun st => startsWithSeq st.data (head.map Char.toLower))
          || (match rest with
              | [] => false
              | d :: _ => d.isAlpha)
        else false
      else false


/-- The inner loops of `choose_renderer`: first renderer of the given
kind accepting the object, over the priority kinds in order. -/
def tryKinds (rs : List Renderer) (obj : Obj) : List String → Option Renderer
  | [] => none
  | k :: ks =>
      match rs.find? (fun r => r.kind == k && r.canRender obj) with
      | some r => some r
      | none => tryKinds rs obj ks


/-- Steps 2-4 of `choose_renderer` (reached when no hint matched):
priority kinds for strings, the html-eligibility gate, the non-html
fallback, the last-resort scan; first match wins for non-strings. -/
def choose_renderer_nohint (rs : List Renderer) (obj : Obj) : Option Renderer :=
  match obj with
  | Obj.pstr s =>
      let htmlish := looks_like_html s
      match tryKinds rs (Obj.pstr s) ["python", "traceback", "text", "json"] with
      | some r => some r
      | none =>
          match (if htmlish then
                  rs.find? (fun r => r.kind == "html" && r.canRender (Obj.pstr s))
                 else none) with
          | some r => some r
          | none =>
              match rs.find? (fun r => r.kind != "html" && r.canRender (Obj.pstr s)) with
              | some r => some r
              | none => rs.find? (fun r => r.canRender (Obj.pstr s))
  | _ => rs.find? (fun r => r.canRender obj)


/-- `choose_renderer` from registry.py. -/
def choose_renderer (rs : List Renderer) (obj : Obj) (kind_hint : Option String) :
    Option Renderer :=
  let hinted :=
    match kind_hint with
    | some h =>
        if h ≠ "" then rs.find? (fun r => r.kind == h && r.canRender obj) else none
    | none => none
  match hinted with
  | some r => some r
  | none => choose_renderer_nohint rs obj


/-- `render_any` from registry.py.  Python's builtin `repr` is passed in
as the collaborator `pyRepr`; a `none` result models an exception
propagating out of the chosen renderer's `render`. -/
def render_any (pyRepr : Obj → String) (rs : List Renderer) (obj : Obj)
    (view_id : String) (kind_hint : Option String) : Option RenderResult :=
  match choose_renderer rs obj kind_hint with
  | none =>
      some { kind := "text", html := "<pre>" ++ escapeHtml (pyRepr obj) ++ "</pre>",
             truncation := some { truncated := false },
             meta := some [("fallback", Obj.pbool true)] }
  | some r => r.render obj view_id


/-! ### CSV tail reading (cli.py)

Files are byte sequences, modelled as `List Char`.  `bytes.find(b"\n")`
returning `-1` becomes `none`. -/

/-- Index of the first newline, if any. -/
def findNl : List Char → Option Nat
  | [] => none
  | c :: cs => if c = '\n' then some 0 else (findNl cs).map (· + 1)


/-- `_read_tail_bytes`: the last `max 1 maxBytes` bytes of the file. -/
def readTailBytes (file : List Char) (maxBytes : Nat) : List Char :=
  let mb := max 1 maxBytes
  file.drop (file.length - mb)


/-- `_read_csv_tail_with_header_bytes` from cli.py: probe the head for
the header line, tail-read the last bytes, and prefix the header onto
the tail unless the tail already starts with it. -/
def readCsvTailWithHeaderBytes (file : List Char) (maxBytes : Nat) : List Char :=
  let mb := max 1 maxBytes
  let chunk := file.take (min 64000 mb)
  let header :=
    match findNl chunk with
    | none => chunk
    | some nl => chunk.take (nl + 1)
  let tail := readTailBytes file mb
  if startsWithSeq header tail || tail == header then tail
  else
    let header2 :=
      if header ≠ [] && !(endsWithNl header) then header ++ ['\n'] else header
    header2 ++ tail


/-- First line of a byte sequence (how the CSV parser derives the
reconstructed table's column-name row). -/
def firstLine (l : List Char) : List Char := l.takeWhile (· ≠ '\n')


/-! The `can_render` predicates of the default renderers, in the order
`register_default_renderers` registers them. -/

/-- plot.py: `isinstance(obj, (bytes, bytearray))`. -/
def plotCanRender : Obj → Bool
  | Obj.pbytes _ => true
  | _ => false


/-- table.py: `isinstance(obj, pd.DataFrame)`. -/
def tableCanRender : Obj → Bool
  | Obj.pdf _ _ => true
  | _ => false


/-- image.py: `can_render(self, obj, *, kind_hint=None)` returns False
whenever `kind_hint` is not `"image"`; the registry always calls
`can_render(obj)` with the default `kind_hint=None`, so within
`choose_renderer` this predicate is constantly False. -/
def imageCanRender : Obj → Bool := fun _ => false


/-- markdown.py: a str, or a dict whose `"text"` is a str. -/
def markdownCanRender : Obj → Bool
  | Obj.pstr _ => true
  | Obj.pdict entries =>
      match alistGet entries "text" with
      | some (Obj.pstr _) => true
      | _ => false
  | _ => false


/-- json_tree.py: `isinstance(obj, (dict, list, tuple))`. -/
def jsonCanRender : Obj → Bool
  | Obj.pdict _ => true
  | Obj.plist _ => true
  | _ => false


/-- python.py: `isinstance(obj, str)`. -/
def pythonCanRender : Obj → Bool
  | Obj.pstr _ => true
  | _ => false


/-- traceback.py: a dict with `type == "traceback"` and a list `frames`. -/
def tracebackCanRender : Obj → Bool
  | Obj.pdict entries =>
      (match alistGet entries "type" with
       | some (Obj.pstr s) => s == "traceback"
       | _ => false)
      && (match alistGet entries "frames" with
          | some (Obj.plist _) => true
          | _ => false)
  | _ => false


/-- text.py: `isinstance(obj, (str, bytes, bytearray))`. -/
def textCanRender : Obj → Bool
  | Obj.pstr _ => true
  | Obj.pbytes _ => true
  | _ => false


/-- html.py: `isinstance(obj, (str, dict))`. -/
def htmlCanRender : Obj → Bool
  | Obj.pstr _ => true
  | Obj.pdict _ => true
  | _ => false


/-- `register_default_renderers` (renderers/__init__.py): the default
registry in registration order.  The render bodies do not influence
selection, so they are abstract parameters here. -/
def default_renderers (renders : String → Obj → String → Option RenderResult) :
    List Renderer :=
  [ { kind := "plot", canRender := plotCanRender, render := renders "plot" },
    { kind := "table", canRender := tableCanRender, render := renders "table" },
    { kind := "image", canRender := imageCanRender, render := renders "image" },
    { kind := "markdown", canRender := markdownCanRender, render := renders "markdown" },
    { kind := "json", canRender := jsonCanRender, render := renders "json" },
    { kind := "python", canRender := pythonCanRender, render := renders "python" },
    { kind := "traceback", canRender := tracebackCanRender, render := renders "traceback" },
    { kind := "text", canRender := textCanRender, render := renders "text" },
    { kind := "html", canRender := htmlCanRender, render := renders "html" } ]


/-! ### Publish handler (app.py), payload level

The JSON payload is embedded as a structure holding the fields the
handler reads; `table`, `artifact` and `artifact_kind` stay untyped
(`Obj`) so that wrong-type values are expressible.  `base64.b64decode`
is an external collaborator passed as a function (`none` = raises). -/

structure PublishPayload : Type where
  view_id : Option String := none
  section_ : Option String := none
  label : Option String := none
  kind : Option String := none
  plot_png_b64 : Option String := none
  table : Option Obj := none
  table_html_simple : Option Obj := none
  artifact : Option Obj := none
  artifact_kind : Option Obj := none
  update_limit_s : Option Int := none
  force : Bool := false


/-- `HTTPException(status_code, detail)`. -/
structure PubErr : Type where
  status : Nat
  detail : String


/-- The handler's success response dict. -/
structure PubResp : Type where
  ok : Bool
  ignored : Bool
  reason : Option String := none
  view_id : String


/-- `str(payload.get("kind") or "").strip().lower()`. -/
def pubKind (p : PublishPayload) : String := strLower (strTrim (p.kind.getD ""))


/-! ### View store (store.py)

The global dictionaries `_VIEWS` / `_VIEW_META` and `_ACTIVE_VIEW_ID`
become a `Store` value threaded through the operations.  Timestamps
taken inside the store (`_now_iso`, `datetime.now`) are passed in as
string parameters; the throttle clock uses rational `now_s` seconds. -/

structure Status : Type where
  last_updated : Option String := none
  last_duration_s : Option ℚ := none
  last_error : Option String := none


structure ViewMeta : Type where
  view_id : String
  kind : String
  label : String
  section_ : Option String := none


structure Artifact : Type where
  kind : String
  obj : Obj
  created_at : String
  label : Option String := none
  section_ : Option String := none
  view_id : Option String := none


structure ViewState : Type where
  kind : String := "none"
  plot_png : Option (List Nat) := none
  table_df : Option (List Obj × List Obj) := none
  table_html_simple : Option String := none
  status : Status := {}
  table_total_rows : Option Int := none
  table_returned_rows : Option Int := none
  artifact : Option Artifact := none
  last_publish_at : Option ℚ := none


structure Store : Type where
  views : List (String × ViewState) := []
  viewMeta : List (String × ViewMeta) := []
  activeViewId : String := "default"


/-- Python's `x or default` for an optional string (None and "" are falsy). -/
def pyOrStr (o : Option String) (d : String) : String :=
  match o with
  | some s => if s = "" then d else s
  | none => d


/-- `normalize_view_id` from store.py. -/
def normalize_view_id (view_id section_ label : Option String) : String :=
  let fallback :=
    let sec := let s := strTrim (pyOrStr section_ "default"); if s = "" then "default" else s
    let lab := let s := strTrim (pyOrStr label "default"); if s = "" then "default" else s
    sec ++ ":" ++ lab
  match view_id with
  | some v => if v ≠ "" then v else fallback
  | none => fallback


/-- `_ensure_view`. -/
def ensureView (st : Store) (vid : String) : Store :=
  match alistGet st.views vid with
  | some _ => st
  | none => { st with views := alistSet st.views vid {} }


/-- Read a view's state (fresh default when absent). -/
def getVS (st : Store) (vid : String) : ViewState :=
  (alistGet st.views vid).getD {}


/-- `view_id or _ACTIVE_VIEW_ID` (None and "" fall back to the active view). -/
def resolveVid (st : Store) (view_id : Option String) : String :=
  match view_id with
  | some v => if v = "" then st.activeViewId else v
  | none => st.activeViewId


/-- `get_view_state`: resolves the id, creates the view if missing
(a read mutates the store), returns the state. -/
def get_view_state (st : Store) (view_id : Option String) : Store × ViewState :=
  let vid := resolveVid st view_id
  let st1 := ensureView st vid
  (st1, getVS st1 vid)


/-- Mutation through the `ViewState` reference returned by `get_view_state`. -/
def updateVS (st : Store) (view_id : Option String) (f : ViewState → ViewState) : Store :=
  let vid := resolveVid st view_id
  let st1 := ensureView st vid
  { st1 with views := alistSet st1.views vid (f (getVS st1 vid)) }


/-- `register_view` from store.py. -/
def register_view (st : Store) (view_id section_ label : Option String)
    (kind : String) (activate_if_first : Bool) : Store × String :=
  let vid := normalize_view_id view_id section_ label
  let st1 := ensureView st vid
  let stv := getVS st1 vid
  let stv1 := if kind = "plot" ∨ kind = "table" then { stv with kind := kind } else stv
  let st2 := { st1 with views := alistSet st1.views vid stv1 }
  let meta : ViewMeta :=
    match alistGet st2.viewMeta vid with
    | none =>
        { view_id := vid, kind := stv1.kind, label := pyOrStr label vid, section_ := section_ }
    | some m =>
        { view_id := vid, kind := stv1.kind, label := pyOrStr label m.label,
          section_ := match section_ with | some s => some s | none => m.section_ }
  let st3 := { st2 with viewMeta := alistSet st2.viewMeta vid meta }
  let st4 :=
    if activate_if_first ∧ st3.activeViewId = "default" ∧ st3.viewMeta.length = 1 then
      { st3 with activeViewId := vid }
    else st3
  (st4, vid)


/-- `should_accept_publish` from store.py: the per-view throttle gate. -/
def should_accept_publish (st : Store) (view_id : String)
    (update_limit_s : Option Int) (now_s : ℚ) : Store × Bool :=
  match update_limit_s with
  | none => (st, true)
  | some lim =>
      let vid := resolveVid st (some view_id)
      let st1 := ensureView st vid
      let stv := getVS st1 vid
      match stv.last_publish_at with
      | none =>
          ({ st1 with views := alistSet st1.views vid { stv with last_publish_at := some now_s } },
           true)
      | some t =>
          if now_s - t ≥ (lim : ℚ) then
            ({ st1 with views := alistSet st1.views vid { stv with last_publish_at := some now_s } },
             true)
          else (st1, false)


/-- `note_publish`. -/
def note_publish (st : Store) (view_id : String) (now_s : ℚ) : Store :=
  updateVS st (some view_id) (fun stv => { stv with last_publish_at := some now_s })


/-- `set_plot`. -/
def set_plot (st : Store) (png : List Nat) (view_id : Option String)
    (nowIso createdAt : String) : Store :=
  let vid := resolveVid st view_id
  updateVS st view_id (fun stv =>
    { stv with
      kind := "plot"
      plot_png := some png
      artifact := some { kind := "plot", obj := Obj.pbytes png, created_at := createdAt,
                         view_id := some vid }
      status := { stv.status with last_updated := some nowIso, last_error := none } })


/-- `set_table` (the DataFrame is carried as its columns/rows lists). -/
def set_table (st : Store) (cols rows : List Obj) (html_simple : Option String)
    (view_id : Option String) (total_rows returned_rows : Option Int)
    (nowIso createdAt : String) : Store :=
  let vid := resolveVid st view_id
  updateVS st view_id (fun stv =>
    { stv with
      kind := "table"
      table_df := some (cols, rows)
      table_html_simple := html_simple
      table_total_rows := total_rows
      table_returned_rows := returned_rows
      artifact := some { kind := "table", obj := Obj.pdf cols rows, created_at := createdAt,
                         view_id := some vid }
      status := { stv.status with last_updated := some nowIso, last_error := none } })


/-- `set_artifact` (note: deliberately does not touch `ViewState.kind`). -/
def set_artifact (st : Store) (obj : Obj) (kind : String)
    (label section_ view_id : Option String) (nowIso createdAt : String) : Store :=
  let vid := resolveVid st view_id
  updateVS st view_id (fun stv =>
    { stv with
      artifact := some { kind := kind, obj := obj, created_at := createdAt,
                         label := label, section_ := section_, view_id := some vid }
      status := { stv.status with last_updated := some nowIso, last_error := none } })


/-- `mark_success`. -/
def mark_success (st : Store) (duration_s : Option ℚ) (view_id : Option String)
    (nowIso : String) : Store :=
  updateVS st view_id (fun stv =>
    { stv with status := { last_updated := some nowIso, last_duration_s := duration_s,
                           last_error := none } })


/-- `mark_error`. -/
def mark_error (st : Store) (message : String) (view_id : Option String)
    (nowIso : String) : Store :=
  updateVS st view_id (fun stv =>
    { stv with
      status := { stv.status with last_updated := some nowIso, last_error := some message } })


/-- `get_status` (returns a copy of the status dict). -/
def get_status (st : Store) (view_id : Option String) : Store × Status :=
  let gv := get_view_state st view_id
  (gv.1, gv.2.status)


/-- `has_plot`. -/
def has_plot (st : Store) (view_id : Option String) : Store × Bool :=
  let gv := get_view_state st view_id
  (gv.1, gv.2.plot_png.isSome)


/-- `has_table`. -/
def has_table (st : Store) (view_id : Option String) : Store × Bool :=
  let gv := get_view_state st view_id
  (gv.1, gv.2.table_df.isSome)


/-- `has_artifact`. -/
def has_artifact (st : Store) (view_id : Option String) : Store × Bool :=
  let gv := get_view_state st view_id
  (gv.1, gv.2.artifact.isSome)


/-- `get_plot`; the `LookupError` becomes `Except.error`. -/
def get_plot (st : Store) (view_id : Option String) : Store × Except String (List Nat) :=
  let gv := get_view_state st view_id
  (gv.1, match gv.2.plot_png with
         | none => Except.error "No plot available"
         | some p => Except.ok p)


/-- `get_table_df`. -/
def get_table_df (st : Store) (view_id : Option String) :
    Store × Except String (List Obj × List Obj) :=
  let gv := get_view_state st view_id
  (gv.1, match gv.2.table_df with
         | none => Except.error "No table available"
         | some d => Except.ok d)


/-- `get_artifact`. -/
def get_artifact (st : Store) (view_id : Option String) : Store × Except String Artifact :=
  let gv := get_view_state st view_id
  (gv.1, match gv.2.artifact with
         | none => Except.error "No artifact available"
         | some a => Except.ok a)


/-- The throttle clock of a view. -/
def getLast (st : Store) (vid : String) : Option ℚ :=
  (getVS st vid).last_publish_at


/-- Order on optional throttle timestamps: absent precedes everything. -/
def lastLe : Option ℚ → Option ℚ → Prop
  | none, _ => True
  | some _, none => False
  | some a, some b => a ≤ b


/-- The store operations that touch the throttle clock, with their
`now_s` arguments (claim C9 quantifies over sequences of these). -/
inductive ThrottleOp : Type where
  | accept (view_id : String) (update_limit_s : Option Int) (now_s : ℚ)
  | note (view_id : String) (now_s : ℚ)


def applyOp (st : Store) : ThrottleOp → Store
  | .accept vid lim now => (should_accept_publish st vid lim now).1
  | .note vid now => note_publish st vid now


def applyOps (st : Store) : List ThrottleOp → Store
  | [] => st
  | op :: ops => applyOps (applyOp st op) ops


/-- Side conditions under which an operation cannot move a clock
backwards: a throttle gate with an absent or non-negative window, and a
`note_publish` whose `now_s` is at least the view's current clock. -/
def opOk (st : Store) : ThrottleOp → Prop
  | .accept _ lim _ => lim = none ∨ ∃ L, lim = some L ∧ 0 ≤ L
  | .note vid now => ∀ t, getLast st (resolveVid st (some vid)) = some t → t ≤ now


def opsOk (st : Store) : List ThrottleOp → Prop
  | [] => True
  | op :: ops => opOk st op ∧ opsOk (applyOp st op) ops


/-- The `publish` handler of app.py at payload level.  Mutations applied
before an exception persist in the returned store, as they do on the
Python global store. -/
def publish (st : Store) (p : PublishPayload) (now_s : ℚ) (nowIso createdAt : String)
    (b64decode : String → Option (List Nat)) : Except PubErr PubResp × Store :=
  let kind := pubKind p
  if ¬(kind = "plot" ∨ kind = "table" ∨ kind = "artifact") then
    (Except.error { status := 422, detail := "publish: kind must be 'plot', 'table', or 'artifact'" }, st)
  else
    let view_id := normalize_view_id p.view_id p.section_ p.label
    -- auto-register view so it appears in dropdown even before content arrives
    let st1 := (register_view st (some view_id) p.section_ p.label "none" false).1
    -- throttling (server-side)
    let gate :=
      if p.force then (st1, true)
      else should_accept_publish st1 view_id p.update_limit_s now_s
    let st2 := gate.1
    if ¬(gate.2 = true) then
      (Except.ok { ok := true, ignored := true, reason := some "throttled", view_id := view_id }, st2)
    else
      if kind = "plot" then
        match p.plot_png_b64 with
        | none =>
            (Except.error { status := 422, detail := "publish: plot_png_b64 is required for kind='plot'" }, st2)
        | some b64 =>
            if b64 = "" then
              (Except.error { status := 422, detail := "publish: plot_png_b64 is required for kind='plot'" }, st2)
            else
              match b64decode b64 with
              | none =>
                  (Except.error { status := 422, detail := "publish: plot_png_b64 was not valid base64" }, st2)
              | some png =>
                  let st3 := set_plot st2 png (some view_id) nowIso createdAt
                  let st4 := (register_view st3 (some view_id) p.section_ p.label
                    "plot" false).1
                  let st5 := mark_success st4 none (some view_id) nowIso
                  let st6 := note_publish st5 view_id now_s
                  (Except.ok { ok := true, ignored := false, view_id := view_id }, st6)
      else if kind = "artifact" then
        match p.artifact_kind with
        | some (Obj.pstr ak) =>
            if strTrim ak = "" then
              (Except.error { status := 422, detail := "publish: artifact_kind is required for kind='artifact'" }, st2)
            else
              let st3 := set_artifact st2 (p.artifact.getD Obj.pnone)
                (strLower (strTrim ak)) p.label p.section_ (some view_id) nowIso createdAt
              let st4 := (register_view st3 (some view_id) p.section_ p.label
                "artifact" false).1
              let st5 := mark_success st4 none (some view_id) nowIso
              let st6 := note_publish st5 view_id now_s
              (Except.ok { ok := true, ignored := false, view_id := view_id }, st6)
        | _ =>
            (Except.error { status := 422, detail := "publish: artifact_kind is required for kind='artifact'" }, st2)
      else
        match p.table with
        | some (Obj.pdict entries) =>
            match alistGet entries "columns" with
            | some (Obj.plist cols) =>
                match alistGet entries "rows" with
                | some (Obj.plist rows) =>
                    let total_rows :=
                      match alistGet entries "total_rows" with
                      | some (Obj.pint n) => some n
                      | some (Obj.pbool b) => some (if b then (1 : Int) else 0)
                      | _ => none
                    let returned_rows :=
                      match alistGet entries "returned_rows" with
                      | some (Obj.pint n) => some n
                      | some (Obj.pbool b) => some (if b then (1 : Int) else 0)
                      | _ => none
                    let html_simple :=
                      match p.table_html_simple with
                      | some (Obj.pstr s) => some s
                      | _ => none
                    let st3 := set_table st2 cols rows html_simple (some view_id)
                      total_rows returned_rows nowIso createdAt
                    let st4 := (register_view st3 (some view_id) p.section_ p.label
                      "table" false).1
                    let st5 := mark_success st4 none (some view_id) nowIso
                    let st6 := note_publish st5 view_id now_s
                    (Except.ok { ok := true, ignored := false, view_id := view_id }, st6)
                | _ =>
                    (Except.error { status := 422, detail := "publish: table must include columns(list) and rows(list)" }, st2)
            | _ =>
                (Except.error { status := 422, detail := "publish: table must include columns(list) and rows(list)" }, st2)
        | _ =>
            (Except.error { status := 422, detail := "publish: table dict is required for kind='table'" }, st2)


/-- Kind-specific shape failure of a plot payload: missing/empty
`plot_png_b64`, or base64 decoding raises. -/
def plotB64Bad (b : Option String) (b64decode : String → Option (List Nat)) : Prop :=
  b = none ∨ b = some "" ∨ ∃ s, b = some s ∧ s ≠ "" ∧ b64decode s = none


/-- Kind-specific shape failure of a table payload: missing/non-dict
`table`, or `columns`/`rows` not both lists. -/
def tableShapeBad (tbl : Option Obj) : Prop :=
  match tbl with
  | some (Obj.pdict entries) =>
      ¬(∃ cols, alistGet entries "columns" = some (Obj.plist cols))
      ∨ ¬(∃ rows, alistGet entries "rows" = some (Obj.plist rows))
  | _ => True


/-- Kind-specific shape failure of an artifact payload: `artifact_kind`
not a non-blank string. -/
def artifactKindBad (ak : Option Obj) : Prop :=
  ¬ ∃ s, ak = some (Obj.pstr s) ∧ strTrim s ≠ ""


/-- Payloads with a valid top-level kind failing kind-specific shape
validation (the class quantified over by claim C4). -/
def shapeFails (p : PublishPayload) (b64decode : String → Option (List Nat)) : Prop :=
  (pubKind p = "plot" ∧ plotB64Bad p.plot_png_b64 b64decode)
  ∨ (pubKind p = "table" ∧ tableShapeBad p.table)
  ∨ (pubKind p = "artifact" ∧ artifactKindBad p.artifact_kind)


/-- Equality of everything in a view's state except the throttle clock. -/
def sameContent (a b : ViewState) : Prop :=
  a.kind = b.kind ∧ a.plot_png = b.plot_png ∧ a.table_df = b.table_df
  ∧ a.table_html_simple = b.table_html_simple
  ∧ a.table_total_rows = b.table_total_rows
  ∧ a.table_returned_rows = b.table_returned_rows
  ∧ a.artifact = b.artifact ∧ a.status = b.status


/-! ### JSON tree renderer (renderers/json_tree.py)

The recursive walk over dict/list/scalar with five budgets.  Python's
builtin `str` (used by `safe_scalar_text`) is the collaborator `pyStr`.
The walk's mutable `_JsonCtx` is threaded explicitly. -/

structure JsonLimits : Type where
  max_depth : Nat := 10
  max_nodes : Nat := 5000
  max_string_chars : Nat := 1000
  max_list_items : Nat := 200
  max_dict_items : Nat := 200


def DEFAULT_JSON_LIMITS : JsonLimits := {}


structure JsonCtx : Type where
  limits : JsonLimits
  nodes : Nat := 0
  truncated : Bool := false
  hit : Option String := none


/-- `_escape_attr`: escape then blank out newlines. -/
def escapeAttr (s : String) : String :=
  ⟨replaceChar '\r' [' '] (replaceChar '\n' [' '] (escapeHtmlL s.data))⟩


/-- `_badge`. -/
def badge (text reason : String) : String :=
  "<span class=\"badge json-badge\" title=\"" ++ escapeHtml reason ++ "\">"
    ++ escapeHtml text ++ "</span>"


/-- `safe_scalar_text` from renderers/limits.py. -/
def safe_scalar_text (pyStr : Obj → String) (x : Obj) (maxChars : Nat) : String × Bool :=
  let s := pyStr x
  if s.data.length ≤ maxChars then (s, false)
  else (⟨s.data.take maxChars⟩ ++ "…", true)


/-- `_render_scalar` (excluding the ctx bookkeeping, done at the call site). -/
def scalarHtml (label s : String) : String :=
  "<span class=\"json-scalar\">"
    ++ ("<span class=\"json-key\" data-json-text=\"" ++ escapeAttr label ++ "\">"
        ++ escapeHtml label ++ "</span>")
    ++ ": "
    ++ ("<span class=\"json-val\" data-json-text=\"" ++ escapeAttr s ++ "\">"
        ++ escapeHtml s ++ "</span>")
    ++ "</span>"


/-- The dict/list node wrapper produced by `_render_dict`/`_render_list`. -/
def containerHtml (cls summary inner_html : String) : String :=
  "<details open class=\"json-node json-node--" ++ cls ++ "\">\n      <summary class=\"json-summaryline\">"
    ++ summary ++ "</summary>\n      <ul class=\"json-children\">" ++ inner_html
    ++ "</ul>\n    </details>"


def dictSummary (label : String) (total : Nat) : String :=
  "<span class=\"json-label\" data-json-text=\"" ++ escapeAttr label ++ "\">"
    ++ escapeHtml label ++ "</span> <span class=\"json-summary\">\x7b…\x7d ("
    ++ toString total ++ " keys)</span>"


def listSummary (label : String) (total : Nat) : String :=
  "<span class=\"json-label\" data-json-text=\"" ++ escapeAttr label ++ "\">"
    ++ escapeHtml label ++ "</span> <span class=\"json-summary\">[…] ("
    ++ toString total ++ " items)</span>"


def innerHtmlOf (parts : List String) (more : String) : String :=
  String.join (parts.map (fun p => "<li>" ++ p ++ "</li>"))
    ++ (if more ≠ "" then "<li>" ++ more ++ "</li>" else "")


mutual

/-- `_render_node`: count the node, enforce the node and depth budgets,
then dispatch on dict / list-or-tuple / scalar. -/
def renderNode (pyStr : Obj → String) (obj : Obj) (ctx : JsonCtx) (depth : Nat)
    (label : String) : String × JsonCtx :=
  let ctx := { ctx with nodes := ctx.nodes + 1 }
  if ctx.nodes > ctx.limits.max_nodes then
    (badge (label ++ ": …") "node limit",
     { ctx with truncated := true, hit := some (ctx.hit.getD "max_nodes") })
  else if depth > ctx.limits.max_depth then
    (badge (label ++ ": …") "depth limit",
     { ctx with truncated := true, hit := some (ctx.hit.getD "max_depth") })
  else
    match obj with
    | Obj.pdict entries => renderDict pyStr entries ctx depth label
    | Obj.plist items => renderList pyStr items ctx depth label
    | x =>
        let st := safe_scalar_text pyStr x ctx.limits.max_string_chars
        let ctx2 :=
          if st.2 then
            { ctx with truncated := true, hit := some (ctx.hit.getD "max_string_chars") }
          else ctx
        (scalarHtml label st.1, ctx2)
termination_by 3 * sizeOf obj + 2

/-- `_render_dict`. -/
def renderDict (pyStr : Obj → String) (entries : List (String × Obj)) (ctx : JsonCtx)
    (depth : Nat) (label : String) : String × JsonCtx :=
  let total := entries.length
  let capped := total > ctx.limits.max_dict_items
  let ctx1 :=
    if capped then
      { ctx with truncated := true, hit := some (ctx.hit.getD "max_dict_items") }
    else ctx
  let shown := if capped then entries.take ctx.limits.max_dict_items else entries
  let res := renderEntries pyStr shown ctx1 depth
  let more :=
    if total > shown.length then
      badge ("… " ++ toString (total - shown.length) ++ " more keys") "dict item limit"
    else ""
  (containerHtml "dict" (dictSummary label total) (innerHtmlOf res.1 more), res.2)
termination_by 3 * sizeOf entries + 1
decreasing_by
  have h : ∀ (m : Nat) {α : Type} [SizeOf α] (xs : List α), sizeOf (xs.take m) ≤ sizeOf xs := by
    intro m α inst xs
    induction xs generalizing m with
    | nil => simp
    | cons x xx ih =>
        cases m with
        | zero => simp; omega
        | succ mm =>
            simp only [List.take_succ_cons, List.cons.sizeOf_spec]
            have := ih mm
            omega
  have hh := h ctx.limits.max_dict_items entries
  simp_wf
  split <;> omega

/-- The item loop of `_render_dict` with its early break on
node/depth-limit truncation. -/
def renderEntries (pyStr : Obj → String) (l : List (String × Obj)) (ctx : JsonCtx)
    (depth : Nat) : List String × JsonCtx :=
  match l with
  | [] => ([], ctx)
  | (k, v) :: rest =>
      let r := renderNode pyStr v ctx (depth + 1) k
      if r.2.truncated = true ∧ (r.2.hit = some "max_nodes" ∨ r.2.hit = some "max_depth") then
        ([r.1], r.2)
      else
        let rr := renderEntries pyStr rest r.2 depth
        (r.1 :: rr.1, rr.2)
termination_by 3 * sizeOf l

/-- `_render_list`. -/
def renderList (pyStr : Obj → String) (items : List Obj) (ctx : JsonCtx)
    (depth : Nat) (label : String) : String × JsonCtx :=
  let total := items.length
  let capped := total > ctx.limits.max_list_items
  let ctx1 :=
    if capped then
      { ctx with truncated := true, hit := some (ctx.hit.getD "max_list_items") }
    else ctx
  let shown := if capped then items.take ctx.limits.max_list_items else items
  let res := renderItems pyStr shown ctx1 depth 0
  let more :=
    if total > shown.length then
      badge ("… " ++ toString (total - shown.length) ++ " more items") "list item limit"
    else ""
  (containerHtml "list" (listSummary label total) (innerHtmlOf res.1 more), res.2)
termination_by 3 * sizeOf items + 1
decreasing_by
  have h : ∀ (m : Nat) {α : Type} [SizeOf α] (xs : List α), sizeOf (xs.take m) ≤ sizeOf xs := by
    intro m α inst xs
    induction xs generalizing m with
    | nil => simp
    | cons x xx ih =>
        cases m with
        | zero => simp; omega
        | succ mm =>
            simp only [List.take_succ_cons, List.cons.sizeOf_spec]
            have := ih mm
            omega
  have hh := h ctx.limits.max_list_items items
  simp_wf
  split <;> omega

/-- The item loop of `_render_list` (labels `[i]`) with its early break. -/
def renderItems (pyStr : Obj → String) (l : List Obj) (ctx : JsonCtx)
    (depth : Nat) (i : Nat) : List String × JsonCtx :=
  match l with
  | [] => ([], ctx)
  | v :: rest =>
      let r := renderNode pyStr v ctx (depth + 1) ("[" ++ toString i ++ "]")
      if r.2.truncated = true ∧ (r.2.hit = some "max_nodes" ∨ r.2.hit = some "max_depth") then
        ([r.1], r.2)
      else
        let rr := renderItems pyStr rest r.2 depth (i + 1)
        (r.1 :: rr.1, rr.2)
termination_by 3 * sizeOf l

end

/-- The toolbar markup of `JsonTreeRenderer.render`. -/
def jsonToolbar : String :=
  "<div class=\"artifact-toolbar\" data-plotsrv-toolbar=\"json\">\n          <div class=\"artifact-toolbar-group\">\n            <span class=\"artifact-toolbar-label\">Find</span>\n            <input class=\"artifact-input\" type=\"text\" placeholder=\"key or value…\" data-plotsrv-json-find=\"1\" />\n            <button type=\"button\" class=\"artifact-btn\" data-plotsrv-action=\"find-prev\" title=\"Previous match\">Prev</button>\n            <button type=\"button\" class=\"artifact-btn\" data-plotsrv-action=\"find-next\" title=\"Next match\">Next</button>\n            <span class=\"artifact-counter\" data-plotsrv-json-count=\"1\"></span>\n          </div>\n        </div>"


/-- `JsonTreeRenderer.render` with the renderer's configured limits. -/
def jsonTreeRender (pyStr : Obj → String) (limits : JsonLimits) (obj : Obj)
    (view_id : String) : RenderResult :=
  let r := renderNode pyStr obj { limits := limits } 0 "root"
  let tree_html := r.1
  let ctx := r.2
  let truncation : Truncation :=
    if ctx.truncated then
      { truncated := true, reason := some "json tree truncated by limits",
        details := some
          [("max_depth", Obj.pint ctx.limits.max_depth),
           ("max_nodes", Obj.pint ctx.limits.max_nodes),
           ("max_string_chars", Obj.pint ctx.limits.max_string_chars),
           ("max_list_items", Obj.pint ctx.limits.max_list_items),
           ("max_dict_items", Obj.pint ctx.limits.max_dict_items),
           ("visited_nodes", Obj.pint ctx.nodes),
           ("hit", match ctx.hit with | some h => Obj.pstr h | none => Obj.pnone)] }
    else { truncated := false }
  let html := jsonToolbar
    ++ "\n        <div class=\"json-tree\" data-plotsrv-json=\"1\">\n          "
    ++ tree_html ++ "\n        </div>"
  { kind := "json", html := html, truncation := some truncation,
    meta := some [("view_id", Obj.pstr view_id), ("visited_nodes", Obj.pint ctx.nodes)] }


mutual

/-- Nesting depth of a JSON-like value: scalars and empty containers
have depth 0; a container is one deeper than its deepest child. -/
def objDepth : Obj → Nat
  | Obj.pdict entries => objDepthEntries entries
  | Obj.plist items => objDepthItems items
  | _ => 0

/-- Depth contribution of dict entries. -/
def objDepthEntries : List (String × Obj) → Nat
  | [] => 0
  | (_, v) :: rest => max (1 + objDepth v) (objDepthEntries rest)

/-- Depth contribution of list items. -/
def objDepthItems : List Obj → Nat
  | [] => 0
  | v :: rest => max (1 + objDepth v) (objDepthItems rest)

end

/-! Small laws about `ensureView` / `getVS`. -/

/-- A chain of singleton lists of the given nesting depth. -/
def nestList : Nat → Obj
  | 0 => Obj.pstr "x"
  | n + 1 => Obj.plist [nestList n]


/-! ### Theorems -/

theorem alistGet_alistSet_same {α : Type} (l : List (String × α)) (k : String) (v : α) :
    alistGet (alistSet l k v) k = some v := by
  induction l with
  | nil => simp [alistGet, alistSet]
  | cons hd tl ih =>
      obtain ⟨k', v'⟩ := hd
      by_cases h : k' = k <;> simp [alistGet, alistSet, h, ih]


theorem alistGet_alistSet_other {α : Type} (l : List (String × α)) (k k' : String) (v : α)
    (h : k' ≠ k) : alistGet (alistSet l k v) k' = alistGet l k' := by
  have hk : k ≠ k' := Ne.symm h
  induction l with
  | nil => simp [alistGet, alistSet, hk]
  | cons hd tl ih =>
      obtain ⟨k0, v0⟩ := hd
      by_cases h0 : k0 = k
      · subst h0
        simp [alistGet, alistSet, hk]
      · by_cases h1 : k0 = k' <;> simp [alistGet, alistSet, h0, h1, h, ih]


/-- Membership in the output of `replaceChar`. -/
theorem mem_replaceChar {c : Char} {r : List Char} {l : List Char} {x : Char}
    (h : x ∈ replaceChar c r l) : x ∈ r ∨ (x ∈ l ∧ x ≠ c) := by
  induction l with
  | nil => simp [replaceChar] at h
  | cons hd tl ih =>
      simp only [replaceChar, List.mem_append] at h
      rcases h with h | h
      · by_cases hc : hd = c
        · subst hc; simp [if_pos rfl] at h; exact Or.inl h
        · simp [hc] at h; subst h; exact Or.inr ⟨List.mem_cons_self _ _, hc⟩
      · rcases ih h with h' | ⟨hmem, hne⟩
        · exact Or.inl h'
        · exact Or.inr ⟨List.mem_cons_of_mem _ hmem, hne⟩


/-- The escaped text never contains a literal `<`. -/
theorem lt_not_mem_escapeHtmlL (l : List Char) : '<' ∉ escapeHtmlL l := by
  intro h
  unfold escapeHtmlL at h
  rcases mem_replaceChar h with h1 | ⟨h1, _⟩
  · simp [String.data] at h1
  rcases mem_replaceChar h1 with h2 | ⟨h2, _⟩
  · simp [String.data] at h2
  rcases mem_replaceChar h2 with h3 | ⟨h3, _⟩
  · simp [String.data] at h3
  rcases mem_replaceChar h3 with h4 | ⟨h4, h4ne⟩
  · simp [String.data] at h4
  · exact h4ne rfl


/-- A longer pattern occurring forces its prefix to occur. -/
theorem startsWithSeq_of_append {p q l : List Char}
    (h : startsWithSeq (p ++ q) l = true) : startsWithSeq p l = true := by
  induction p generalizing l with
  | nil => simp [startsWithSeq]
  | cons c cs ih =>
      cases l with
      | nil => simp [startsWithSeq] at h
      | cons x xs =>
          simp only [List.cons_append, startsWithSeq, Bool.and_eq_true] at h ⊢
          exact ⟨h.1, ih h.2⟩


theorem containsSeq_of_append {p q l : List Char}
    (h : containsSeq (p ++ q) l = true) : containsSeq p l = true := by
  induction l with
  | nil => simp [containsSeq] at h ⊢; exact startsWithSeq_of_append h
  | cons x xs ih =>
      simp only [containsSeq, Bool.or_eq_true] at h ⊢
      rcases h with h | h
      · exact Or.inl (startsWithSeq_of_append h)
      · exact Or.inr (ih h)


theorem endsWithLt_mem {l : List Char} (h : endsWithLt l = true) : '<' ∈ l := by
  induction l with
  | nil => simp [endsWithLt] at h
  | cons x xs ih =>
      cases xs with
      | nil =>
          simp [endsWithLt] at h
          simp [h]
      | cons y ys =>
          simp only [endsWithLt] at h
          exact List.mem_cons_of_mem _ (ih h)


theorem endsWithLt_append_cons (l : List Char) (x : Char) (m : List Char) :
    endsWithLt (l ++ x :: m) = endsWithLt (x :: m) := by
  induction l with
  | nil => rfl
  | cons a as ih =>
      cases as with
      | nil => simp [endsWithLt]
      | cons b bs => simpa [endsWithLt] using ih


/-- Splitting an occurrence of `<s` across a concatenation. -/
theorem containsSeq_ltS_append (l m : List Char)
    (h : containsSeq ltS (l ++ m) = true) :
    containsSeq ltS l = true ∨
      (endsWithLt l = true ∧ startsWithSeq ['s'] m = true) ∨
      containsSeq ltS m = true := by
  induction l with
  | nil => exact Or.inr (Or.inr h)
  | cons x xs ih =>
      have h' : startsWithSeq ltS (x :: (xs ++ m)) = true ∨
          containsSeq ltS (xs ++ m) = true := by
        simpa only [List.cons_append, containsSeq, Bool.or_eq_true] using h
      rcases h' with h1 | h1
      · -- an occurrence starting at `x`
        have hx : '<' = x ∧ startsWithSeq ['s'] (xs ++ m) = true := by
          simpa only [ltS, startsWithSeq, Bool.and_eq_true, beq_iff_eq] using h1
        cases xs with
        | nil =>
            refine Or.inr (Or.inl ?_)
            refine ⟨?_, by simpa using hx.2⟩
            simp [endsWithLt, hx.1.symm]
        | cons y ys =>
            have hy : 's' = y ∧ True := by
              simpa only [List.cons_append, startsWithSeq, Bool.and_eq_true,
                beq_iff_eq, and_true] using hx.2
            refine Or.inl ?_
            have : startsWithSeq ltS (x :: y :: ys) = true := by
              simp [ltS, startsWithSeq, hx.1.symm, hy.1.symm]
            simp [containsSeq, this]
      · rcases ih h1 with h2 | h2 | h2
        · refine Or.inl ?_
          simp [containsSeq, h2]
        · refine Or.inr (Or.inl ⟨?_, h2.2⟩)
          cases xs with
          | nil => simp [endsWithLt] at h2
          | cons y ys => simpa [endsWithLt] using h2.1
        · exact Or.inr (Or.inr h2)


/-- A `<`-free character list contains no `<s`. -/
theorem containsSeq_ltS_eq_false_of_not_mem {l : List Char} (h : '<' ∉ l) :
    containsSeq ltS l = false := by
  induction l with
  | nil => simp [containsSeq, ltS, startsWithSeq]
  | cons x xs ih =>
      have hx : x ≠ '<' := fun hh => h (hh ▸ List.mem_cons_self _ _)
      have hx' : ¬ ('<' = x) := fun hh => hx hh.symm
      have hxs : '<' ∉ xs := fun hh => h (List.mem_cons_of_mem _ hh)
      simp only [containsSeq, Bool.or_eq_false_iff]
      exact ⟨by simp [ltS, startsWithSeq, hx'], ih hxs⟩


theorem endsWithLt_eq_false_of_not_mem {l : List Char} (h : '<' ∉ l) :
    endsWithLt l = false := by
  cases he : endsWithLt l
  · rfl
  · exact absurd (endsWithLt_mem he) h


/-- Main no-`<script` lemma: a text of the shape
`template-prefix ++ escaped-payload ++ template-suffix` contains no
occurrence of `<script` provided neither template piece contains `<s`,
the prefix does not end in `<`, and the payload is `<`-free. -/
theorem no_script_in_sandwich (A B E : List Char)
    (hA : containsSeq ltS A = false)
    (hAend : endsWithLt A = false)
    (hB : containsSeq ltS B = false)
    (hE : '<' ∉ E) :
    containsSeq "<script".data (A ++ E ++ B) = false := by
  by_contra hcon
  have h7 : containsSeq "<script".data (A ++ E ++ B) = true := by
    cases hc : containsSeq "<script".data (A ++ E ++ B)
    · exact absurd hc hcon
    · rfl
  have hsplit : "<script".data = ltS ++ "cript".data := rfl
  have h2 : containsSeq ltS (A ++ E ++ B) = true := by
    rw [hsplit] at h7
    exact containsSeq_of_append h7
  rw [List.append_assoc] at h2
  rcases containsSeq_ltS_append A (E ++ B) h2 with h3 | h3 | h3
  · rw [hA] at h3; exact Bool.false_ne_true h3
  · rw [hAend] at h3; exact Bool.false_ne_true h3.1
  · rcases containsSeq_ltS_append E B h3 with h4 | h4 | h4
    · rw [containsSeq_ltS_eq_false_of_not_mem hE] at h4
      exact Bool.false_ne_true h4
    · rw [endsWithLt_eq_false_of_not_mem hE] at h4
      exact Bool.false_ne_true h4.1
    · rw [hB] at h4; exact Bool.false_ne_true h4


theorem sizeOf_take_le {α : Type} [SizeOf α] (n : Nat) (l : List α) :
    sizeOf (l.take n) ≤ sizeOf l := by
  induction l generalizing n with
  | nil => simp
  | cons x xs ih =>
      cases n with
      | zero => simp; omega
      | succ m =>
          simp only [List.take_succ_cons, List.cons.sizeOf_spec]
          have := ih m
          omega


theorem getVS_ensureView (st : Store) (vid : String) :
    getVS (ensureView st vid) vid = getVS st vid := by
  unfold ensureView getVS
  cases h : alistGet st.views vid with
  | some vs => simp [h]
  | none => simp [h, alistGet_alistSet_same]


theorem getVS_ensureView_other (st : Store) (vid vid' : String) (h : vid' ≠ vid) :
    getVS (ensureView st vid) vid' = getVS st vid' := by
  unfold ensureView getVS
  cases hv : alistGet st.views vid with
  | some vs => simp
  | none => simp [alistGet_alistSet_other _ _ _ _ h]


theorem alistGet_ensureView_self (st : Store) (vid : String) :
    alistGet (ensureView st vid).views vid = some (getVS st vid) := by
  unfold ensureView getVS
  cases h : alistGet st.views vid with
  | some vs => simp [h]
  | none => simp [h, alistGet_alistSet_same]


/-- C1.  With no sanitizing library (bleach) importable, the HTML renderer
in safe mode and the Markdown renderer in safe mode emit the input only
HTML-escaped: for every input string the output html contains no
occurrence of the byte sequence `<script` (in particular for the input
`"<script>alert(1)</script>"`), and the meta map records the degraded
mode (`mode = "escaped_preview"` for the HTML renderer, `rendered = False`
for the Markdown renderer).  The Markdown part holds whatever the external
markdown library does (`mdAvailable`, `mdConvert`, `mdErr` arbitrary). -/
theorem c1_sanitizer_fail_closed :
    ∀ (s viewId : String),
      (containsSeq "<script".data (htmlRenderStrNoBleach s viewId).html.data = false
        ∧ metaGet (htmlRenderStrNoBleach s viewId) "mode" = some (Obj.pstr "escaped_preview"))
      ∧ ∀ (mdAvailable : Bool) (mdConvert : String → String) (mdErr : String),
          containsSeq "<script".data
              (markdownRenderStrNoBleach mdAvailable mdConvert mdErr s viewId).html.data = false
          ∧ metaGet (markdownRenderStrNoBleach mdAvailable mdConvert mdErr s viewId) "rendered"
              = some (Obj.pbool false) := by
  intro s viewId
  refine ⟨⟨?_, ?_⟩, ?_⟩
  · have hdata : (htmlRenderStrNoBleach s viewId).html.data =
        ("<div class='plotsrv-html plotsrv-html--escaped'>".data ++
         "<div class='note'>Install <code>bleach</code> to sanitize and render HTML safely. Showing escaped preview.</div>".data ++
         "<pre class='plotsrv-pre plotsrv-pre--wrap'>".data) ++
        escapeHtmlL (truncateText s DEFAULT_TEXT_LIMITS).1.data ++
        ("</pre>".data ++ "</div>".data) := by
      simp [htmlRenderStrNoBleach, sanitizeHtmlNoBleach, escapeHtml,
        String.data_append, List.append_assoc]
    rw [hdata]
    exact no_script_in_sandwich _ _ _ (by decide) (by decide) (by decide)
      (lt_not_mem_escapeHtmlL _)
  · rfl
  · intro mdAvailable mdConvert mdErr
    cases mdAvailable with
    | false =>
        constructor
        · have hdata : (markdownRenderStrNoBleach false mdConvert mdErr s viewId).html.data =
              "<pre style='white-space:pre-wrap'>".data ++
              escapeHtmlL (truncateText s DEFAULT_TEXT_LIMITS).1.data ++
              "</pre>".data := by
            simp [markdownRenderStrNoBleach, escapeHtml, String.data_append,
              List.append_assoc]
          rw [hdata]
          exact no_script_in_sandwich _ _ _ (by decide) (by decide) (by decide)
            (lt_not_mem_escapeHtmlL _)
        · rfl
    | true =>
        constructor
        · have hdata : (markdownRenderStrNoBleach true mdConvert mdErr s viewId).html.data =
              ("<div class='artifact-warn'>".data ++
               "Markdown sanitization is not available. ".data ++
               "Showing raw markdown (escaped). ".data ++
               escapeHtmlL "install 'bleach' to enable safe markdown sanitization".data ++
               "</div>".data ++
               "<pre style='white-space:pre-wrap'>".data) ++
              escapeHtmlL (truncateText s DEFAULT_TEXT_LIMITS).1.data ++
              "</pre>".data := by
            simp [markdownRenderStrNoBleach, mdSanitizeNoBleach, escapeHtml,
              String.data_append, List.append_assoc]
          rw [hdata]
          exact no_script_in_sandwich _ _ _ (by decide) (by decide) (by decide)
            (lt_not_mem_escapeHtmlL _)
        · rfl


theorem getVS_setView_same (st : Store) (vid : String) (vs : ViewState) :
    getVS { st with views := alistSet st.views vid vs } vid = vs := by
  simp [getVS, alistGet_alistSet_same]


theorem getVS_setView_other (st : Store) (vid vid' : String) (vs : ViewState)
    (h : vid' ≠ vid) :
    getVS { st with views := alistSet st.views vid vs } vid' = getVS st vid' := by
  simp [getVS, alistGet_alistSet_other _ _ _ _ h]


theorem ensureView_eq_of_mem (st : Store) (vid : String) (vs : ViewState)
    (h : alistGet st.views vid = some vs) : ensureView st vid = st := by
  simp [ensureView, h]


theorem getLast_ensureView (st : Store) (vid vid' : String) :
    getLast (ensureView st vid) vid' = getLast st vid' := by
  by_cases h : vid' = vid
  · subst h; unfold getLast; rw [getVS_ensureView]
  · unfold getLast; rw [getVS_ensureView_other _ _ _ h]


theorem resolveVid_of_ne (st : Store) (vid : String) (h : vid ≠ "") :
    resolveVid st (some vid) = vid := by
  simp [resolveVid, h]


/-- One-step unfolding of `should_accept_publish`: no limit. -/
theorem sap_none (st : Store) (vid : String) (now : ℚ) :
    should_accept_publish st vid none now = (st, true) := rfl


/-- One-step unfolding of `should_accept_publish`: first publish. -/
theorem sap_fresh (st : Store) (vid : String) (L : Int) (now : ℚ)
    (hvid : vid ≠ "") (hlast : getLast st vid = none) :
    should_accept_publish st vid (some L) now =
      ({ ensureView st vid with
         views := alistSet (ensureView st vid).views vid
           { getVS (ensureView st vid) vid with last_publish_at := some now } }, true) := by
  unfold should_accept_publish
  rw [resolveVid_of_ne st vid hvid]
  have h1 : (getVS (ensureView st vid) vid).last_publish_at = none := by
    rw [getVS_ensureView]; exact hlast
  simp [h1]


/-- One-step unfolding of `should_accept_publish`: later publish. -/
theorem sap_stale (st : Store) (vid : String) (L : Int) (now t : ℚ)
    (hvid : vid ≠ "") (hlast : getLast st vid = some t) :
    should_accept_publish st vid (some L) now =
      if now - t ≥ (L : ℚ) then
        ({ ensureView st vid with
           views := alistSet (ensureView st vid).views vid
             { getVS (ensureView st vid) vid with last_publish_at := some now } }, true)
      else (ensureView st vid, false) := by
  unfold should_accept_publish
  rw [resolveVid_of_ne st vid hvid]
  have h1 : (getVS (ensureView st vid) vid).last_publish_at = some t := by
    rw [getVS_ensureView]; exact hlast
  simp [h1]


/-- C3.  Throttle law: for a view with no prior publish, window `L > 0`
and start `t0`, `should_accept_publish` at `t0`, `t0 + L/2`, `t0 + L`
returns accept, reject, accept; the rejected call does not move the
window (the clock keeps the last accepted timestamp), and
`update_limit_s = None` always accepts without touching the store. -/
theorem c3_throttle_law (st : Store) (vid : String) (L : Int) (t0 : ℚ)
    (hvid : vid ≠ "") (hL : 0 < L) (hfresh : getLast st vid = none) :
    (should_accept_publish st vid (some L) t0).2 = true
    ∧ (should_accept_publish (should_accept_publish st vid (some L) t0).1 vid (some L)
        (t0 + (L : ℚ)/2)).2 = false
    ∧ getLast (should_accept_publish (should_accept_publish st vid (some L) t0).1 vid
        (some L) (t0 + (L : ℚ)/2)).1 vid
      = getLast (should_accept_publish st vid (some L) t0).1 vid
    ∧ (should_accept_publish
        (should_accept_publish (should_accept_publish st vid (some L) t0).1 vid (some L)
          (t0 + (L : ℚ)/2)).1 vid (some L) (t0 + (L : ℚ))).2 = true
    ∧ ∀ (st' : Store) (vid' : String) (now' : ℚ),
        should_accept_publish st' vid' none now' = (st', true) := by
  have hLQ : (0 : ℚ) < (L : ℚ) := by exact_mod_cast hL
  have e1 := sap_fresh st vid L t0 hvid hfresh
  set A : Store :=
    { ensureView st vid with
      views := alistSet (ensureView st vid).views vid
        { getVS (ensureView st vid) vid with last_publish_at := some t0 } } with hA
  have hlastA : getLast A vid = some t0 := by
    unfold getLast
    rw [hA, getVS_setView_same]
  have e2 := sap_stale A vid L (t0 + (L : ℚ)/2) t0 hvid hlastA
  have harith1 : ¬ (t0 + (L : ℚ)/2 - t0 ≥ (L : ℚ)) := by
    intro hcon; linarith
  rw [if_neg harith1] at e2
  have hmemA : alistGet A.views vid =
      some { getVS (ensureView st vid) vid with last_publish_at := some t0 } := by
    rw [hA]; exact alistGet_alistSet_same _ _ _
  have eA : ensureView A vid = A := ensureView_eq_of_mem A vid _ hmemA
  rw [eA] at e2
  have e3 := sap_stale A vid L (t0 + (L : ℚ)) t0 hvid hlastA
  have harith2 : t0 + (L : ℚ) - t0 ≥ (L : ℚ) := by linarith
  rw [if_pos harith2] at e3
  refine ⟨by rw [e1], ?_, ?_, ?_, fun st' vid' now' => rfl⟩
  · rw [e1, e2]
  · rw [e1, e2]
  · rw [e1, e2, e3]


/-- Witness for C3 at `st = {}`, `vid = "v"`, `L = 2`, `t0 = 0`. -/
theorem c3_throttle_law_witness :
    (should_accept_publish ({} : Store) "v" (some 2) 0).2 = true
    ∧ (should_accept_publish (should_accept_publish ({} : Store) "v" (some 2) 0).1 "v" (some 2)
        (0 + ((2 : Int) : ℚ)/2)).2 = false
    ∧ getLast (should_accept_publish (should_accept_publish ({} : Store) "v" (some 2) 0).1 "v"
        (some 2) (0 + ((2 : Int) : ℚ)/2)).1 "v"
      = getLast (should_accept_publish ({} : Store) "v" (some 2) 0).1 "v"
    ∧ (should_accept_publish
        (should_accept_publish (should_accept_publish ({} : Store) "v" (some 2) 0).1 "v" (some 2)
          (0 + ((2 : Int) : ℚ)/2)).1 "v" (some 2) (0 + ((2 : Int) : ℚ))).2 = true
    ∧ ∀ (st' : Store) (vid' : String) (now' : ℚ),
        should_accept_publish st' vid' none now' = (st', true) :=
  c3_throttle_law {} "v" 2 0 (by decide) (by decide) rfl


theorem getVS_set_active (st : Store) (c : Prop) [Decidable c] (x vid' : String) :
    getVS (if c then { st with activeViewId := x } else st) vid' = getVS st vid' := by
  unfold getVS; split <;> rfl


theorem register_view_snd (st : Store) (view_id section_ label : Option String)
    (k : String) (aif : Bool) :
    (register_view st view_id section_ label k aif).2
      = normalize_view_id view_id section_ label := rfl


/-- The `views` component produced by `register_view`. -/
theorem register_view_views (st : Store) (view_id section_ label : Option String)
    (k : String) (aif : Bool) :
    (register_view st view_id section_ label k aif).1.views
      = alistSet (ensureView st (normalize_view_id view_id section_ label)).views
          (normalize_view_id view_id section_ label)
          (if k = "plot" ∨ k = "table" then
            { getVS (ensureView st (normalize_view_id view_id section_ label))
                (normalize_view_id view_id section_ label) with kind := k }
           else getVS (ensureView st (normalize_view_id view_id section_ label))
                (normalize_view_id view_id section_ label)) := by
  unfold register_view
  dsimp only
  rw [apply_ite Store.views]
  dsimp only
  rw [ite_self]


/-- What `register_view` does to the registered view's state. -/
theorem register_view_getVS (st : Store) (view_id section_ label : Option String)
    (k : String) (aif : Bool) :
    getVS (register_view st view_id section_ label k aif).1
        (normalize_view_id view_id section_ label)
      = (if k = "plot" ∨ k = "table" then
           { getVS st (normalize_view_id view_id section_ label) with kind := k }
         else getVS st (normalize_view_id view_id section_ label)) := by
  unfold getVS
  rw [register_view_views, alistGet_alistSet_same]
  rw [show ∀ (o : ViewState), (some o).getD {} = o from fun _ => rfl]
  rw [getVS_ensureView]
  rfl


/-- `register_view` never touches other views' states. -/
theorem register_view_getVS_other (st : Store) (view_id section_ label : Option String)
    (k : String) (aif : Bool) (vid' : String)
    (h : vid' ≠ normalize_view_id view_id section_ label) :
    getVS (register_view st view_id section_ label k aif).1 vid' = getVS st vid' := by
  unfold getVS
  rw [register_view_views, alistGet_alistSet_other _ _ _ _ h]
  show getVS (ensureView st (normalize_view_id view_id section_ label)) vid' = getVS st vid'
  rw [getVS_ensureView_other _ _ _ h]


/-- Counterexample to C8 as stated: on a fresh store, registering a view
with `kind = "artifact"` leaves the view's kind at `"none"` — the code's
upgrade branch covers only `("plot", "table")`, not `"artifact"`. -/
theorem c8_counterexample :
    (getVS (register_view ({} : Store) none none none "artifact" true).1
        (register_view ({} : Store) none none none "artifact" true).2).kind = "none"
    ∧ (register_view ({} : Store) none none none "artifact" true).2
        = "default:default" := by
  constructor
  · rw [register_view_snd, register_view_getVS, if_neg (by decide)]
    rfl
  · rfl


/-- C8 (amended).  A view's kind starts at `"none"`; `register_view`
upgrades it exactly for the kinds `"plot"` and `"table"`, while any other
kind — including `"artifact"` and `"none"` — leaves the existing kind
unchanged; registration never modifies the view's content or status, and
a kind never returns to `"none"` once concrete. -/
theorem c8_register_view_kind_upgrade (st : Store) (view_id section_ label : Option String)
    (k : String) (aif : Bool) (vid : String) (after before : ViewState)
    (hvid : (register_view st view_id section_ label k aif).2 = vid)
    (hafter : after = getVS (register_view st view_id section_ label k aif).1 vid)
    (hbefore : before = getVS st vid) :
    (({} : ViewState).kind = "none")
    ∧ ((k = "plot" ∨ k = "table") → after.kind = k)
    ∧ (¬(k = "plot" ∨ k = "table") → after.kind = before.kind)
    ∧ after.plot_png = before.plot_png
    ∧ after.table_df = before.table_df
    ∧ after.artifact = before.artifact
    ∧ after.status = before.status
    ∧ (before.kind ≠ "none" → after.kind ≠ "none") := by
  subst hbefore hafter
  have hv : vid = normalize_view_id view_id section_ label := by
    rw [← hvid, register_view_snd]
  subst hv
  rw [register_view_getVS]
  by_cases hk : k = "plot" ∨ k = "table"
  · rw [if_pos hk]
    refine ⟨rfl, fun _ => rfl, fun hcon => absurd hk hcon, rfl, rfl, rfl, rfl, ?_⟩
    intro _ hcon
    rcases hk with hk | hk <;> simp [hk] at hcon
  · rw [if_neg hk]
    exact ⟨rfl, fun hcon => absurd hcon hk, fun _ => rfl, rfl, rfl, rfl, rfl, fun h => h⟩


/-- Witness for C8 (amended): re-registering `section:label = a:b` with
kind `"plot"` upgrades the kind, and with `"artifact"` keeps it. -/
theorem c8_register_view_kind_upgrade_witness :
    ((({} : ViewState).kind = "none")
      ∧ (("plot" = "plot" ∨ "plot" = "table") →
          (getVS (register_view ({} : Store) none (some "a") (some "b") "plot" true).1
            "a:b").kind = "plot")
      ∧ (¬("plot" = "plot" ∨ "plot" = "table") →
          (getVS (register_view ({} : Store) none (some "a") (some "b") "plot" true).1
            "a:b").kind = (getVS ({} : Store) "a:b").kind)
      ∧ (getVS (register_view ({} : Store) none (some "a") (some "b") "plot" true).1
          "a:b").plot_png = (getVS ({} : Store) "a:b").plot_png
      ∧ (getVS (register_view ({} : Store) none (some "a") (some "b") "plot" true).1
          "a:b").table_df = (getVS ({} : Store) "a:b").table_df
      ∧ (getVS (register_view ({} : Store) none (some "a") (some "b") "plot" true).1
          "a:b").artifact = (getVS ({} : Store) "a:b").artifact
      ∧ (getVS (register_view ({} : Store) none (some "a") (some "b") "plot" true).1
          "a:b").status = (getVS ({} : Store) "a:b").status
      ∧ ((getVS ({} : Store) "a:b").kind ≠ "none" →
          (getVS (register_view ({} : Store) none (some "a") (some "b") "plot" true).1
            "a:b").kind ≠ "none")) :=
  c8_register_view_kind_upgrade {} none (some "a") (some "b") "plot" true "a:b"
    (getVS (register_view ({} : Store) none (some "a") (some "b") "plot" true).1 "a:b")
    (getVS ({} : Store) "a:b") (by decide) rfl rfl


theorem lastLe_refl (o : Option ℚ) : lastLe o o := by
  cases o <;> simp [lastLe]


theorem lastLe_trans {a b c : Option ℚ} (h1 : lastLe a b) (h2 : lastLe b c) :
    lastLe a c := by
  cases a <;> cases b <;> cases c <;> simp_all [lastLe]
  exact le_trans h1 h2


/-- `note_publish` unfolded. -/
theorem note_publish_eq (st : Store) (vid : String) (now : ℚ) :
    note_publish st vid now =
      { ensureView st (resolveVid st (some vid)) with
        views := alistSet (ensureView st (resolveVid st (some vid))).views
          (resolveVid st (some vid))
          { getVS (ensureView st (resolveVid st (some vid))) (resolveVid st (some vid)) with
            last_publish_at := some now } } := rfl


/-- A single clock-touching operation sampled under `opOk` never moves
any view's `last_publish_at` backwards. -/
theorem throttle_op_mono (st : Store) (op : ThrottleOp) (vid' : String)
    (h : opOk st op) : lastLe (getLast st vid') (getLast (applyOp st op) vid') := by
  cases op with
  | note vid now =>
      have hcond : ∀ t, getLast st (resolveVid st (some vid)) = some t → t ≤ now := h
      show lastLe (getLast st vid') (getLast (note_publish st vid now) vid')
      rw [note_publish_eq]
      by_cases hv : vid' = resolveVid st (some vid)
      · rw [hv]
        unfold getLast
        rw [getVS_setView_same]
        cases hcur : (getVS st (resolveVid st (some vid))).last_publish_at with
        | none => simp [lastLe]
        | some t =>
            have hle := hcond t (by unfold getLast; rw [hcur])
            simpa [lastLe] using hle
      · unfold getLast
        rw [getVS_setView_other _ _ _ _ hv, getVS_ensureView_other _ _ _ hv]
        exact lastLe_refl _
  | accept vid lim now =>
      rcases h with hnone | ⟨L, hLe, hL0⟩
      · subst hnone
        exact lastLe_refl _
      · subst hLe
        show lastLe (getLast st vid') (getLast (should_accept_publish st vid (some L) now).1 vid')
        unfold should_accept_publish
        dsimp only
        cases hlast : (getVS (ensureView st (resolveVid st (some vid)))
            (resolveVid st (some vid))).last_publish_at with
        | none =>
            dsimp only
            by_cases hv : vid' = resolveVid st (some vid)
            · rw [hv]
              unfold getLast
              rw [getVS_setView_same]
              have hnone' : (getVS st (resolveVid st (some vid))).last_publish_at = none := by
                rw [← getVS_ensureView st (resolveVid st (some vid))]; exact hlast
              rw [hnone']
              simp [lastLe]
            · unfold getLast
              rw [getVS_setView_other _ _ _ _ hv, getVS_ensureView_other _ _ _ hv]
              exact lastLe_refl _
        | some t =>
            dsimp only
            by_cases hge : now - t ≥ (L : ℚ)
            · rw [if_pos hge]
              by_cases hv : vid' = resolveVid st (some vid)
              · rw [hv]
                unfold getLast
                rw [getVS_setView_same]
                have hsome : (getVS st (resolveVid st (some vid))).last_publish_at
                    = some t := by
                  rw [← getVS_ensureView st (resolveVid st (some vid))]; exact hlast
                rw [hsome]
                have hL0' : (0 : ℚ) ≤ (L : ℚ) := by exact_mod_cast hL0
                show t ≤ now
                linarith
              · unfold getLast
                rw [getVS_setView_other _ _ _ _ hv, getVS_ensureView_other _ _ _ hv]
                exact lastLe_refl _
            · rw [if_neg hge]
              rw [show getLast (ensureView st (resolveVid st (some vid))) vid'
                    = getLast st vid' from getLast_ensureView _ _ _]
              exact lastLe_refl _


/-- Counterexample to C9 as stated: `note_publish` overwrites the clock
unconditionally, so a second call with a smaller `now_s` moves
`last_publish_at` backwards (10 → 5). -/
theorem c9_counterexample :
    getLast (note_publish (note_publish ({} : Store) "v" 10) "v" 5) "v" = some 5
    ∧ getLast (note_publish ({} : Store) "v" 10) "v" = some 10
    ∧ ¬ ((10 : ℚ) ≤ 5) :=
  ⟨rfl, rfl, by norm_num⟩


/-- C9 (amended).  Over any sequence of clock-touching operations in
which every `should_accept_publish` carries an absent or non-negative
window and every `note_publish` is called with `now_s` at least the
view's current clock (a monotone caller clock), every view's
`last_publish_at` is monotone non-decreasing. -/
theorem c9_last_publish_monotone (ops : List ThrottleOp) (st : Store) (vid : String)
    (h : opsOk st ops) :
    lastLe (getLast st vid) (getLast (applyOps st ops) vid) := by
  induction ops generalizing st with
  | nil => exact lastLe_refl _
  | cons op rest ih =>
      obtain ⟨h1, h2⟩ := h
      exact lastLe_trans (throttle_op_mono st op vid h1) (ih (applyOp st op) h2)


/-- Witness for C9 (amended): accept at 0 with window 2, note at 1,
unlimited accept at 5, on view `"v"` of the empty store. -/
theorem c9_last_publish_monotone_witness :
    lastLe (getLast ({} : Store) "v")
      (getLast (applyOps ({} : Store)
        [ThrottleOp.accept "v" (some 2) 0, ThrottleOp.note "v" 1,
         ThrottleOp.accept "v" none 5]) "v") := by
  refine c9_last_publish_monotone _ _ _ ?_
  refine ⟨Or.inr ⟨2, rfl, by norm_num⟩, ?_, ?_, trivial⟩
  · intro t ht
    have h0 : getLast (applyOp ({} : Store) (ThrottleOp.accept "v" (some 2) 0))
        (resolveVid (applyOp ({} : Store) (ThrottleOp.accept "v" (some 2) 0)) (some "v"))
        = some 0 := rfl
    have heq : some (0 : ℚ) = some t := h0.symm.trans ht
    injection heq with h
    rw [← h]
    norm_num
  · exact Or.inl rfl


/-- C10.  Store lookups never fail on an unknown view id: for an id not
in the store, `get_view_state`, the `has_*` predicates, `get_status` and
the `get_*` accessors silently create a fresh empty `ViewState` for the
id (the read mutates the store); `has_*` then answer `false` and the
content accessors fail only with the content-absence `LookupError`
messages, never an unknown-view error. -/
theorem c10_lookup_creates_view (st : Store) (vid : String)
    (hvid : vid ≠ "") (habs : alistGet st.views vid = none) :
    (get_view_state st (some vid)).2 = ({} : ViewState)
    ∧ alistGet (get_view_state st (some vid)).1.views vid = some ({} : ViewState)
    ∧ (has_plot st (some vid)).2 = false
    ∧ alistGet (has_plot st (some vid)).1.views vid = some ({} : ViewState)
    ∧ (has_table st (some vid)).2 = false
    ∧ (has_artifact st (some vid)).2 = false
    ∧ (get_status st (some vid)).2 = ({} : Status)
    ∧ (get_plot st (some vid)).2 = Except.error "No plot available"
    ∧ (get_table_df st (some vid)).2 = Except.error "No table available"
    ∧ (get_artifact st (some vid)).2 = Except.error "No artifact available" := by
  have hgvs : get_view_state st (some vid) = (ensureView st vid, ({} : ViewState)) := by
    unfold get_view_state
    dsimp only
    rw [resolveVid_of_ne st vid hvid, getVS_ensureView]
    unfold getVS
    rw [habs]
    rfl
  have hmem : alistGet (ensureView st vid).views vid = some ({} : ViewState) := by
    unfold ensureView
    rw [habs]
    exact alistGet_alistSet_same _ _ _
  refine ⟨?_, ?_, ?_, ?_, ?_, ?_, ?_, ?_, ?_, ?_⟩
  · rw [hgvs]
  · rw [hgvs]; exact hmem
  · unfold has_plot; rw [hgvs]; rfl
  · unfold has_plot; rw [hgvs]; exact hmem
  · unfold has_table; rw [hgvs]; rfl
  · unfold has_artifact; rw [hgvs]; rfl
  · unfold get_status; rw [hgvs]
  · unfold get_plot; rw [hgvs]
  · unfold get_table_df; rw [hgvs]
  · unfold get_artifact; rw [hgvs]


/-- Witness for C10 at the empty store and id `"v"`. -/
theorem c10_lookup_creates_view_witness :
    (get_view_state ({} : Store) (some "v")).2 = ({} : ViewState)
    ∧ alistGet (get_view_state ({} : Store) (some "v")).1.views "v" = some ({} : ViewState)
    ∧ (has_plot ({} : Store) (some "v")).2 = false
    ∧ alistGet (has_plot ({} : Store) (some "v")).1.views "v" = some ({} : ViewState)
    ∧ (has_table ({} : Store) (some "v")).2 = false
    ∧ (has_artifact ({} : Store) (some "v")).2 = false
    ∧ (get_status ({} : Store) (some "v")).2 = ({} : Status)
    ∧ (get_plot ({} : Store) (some "v")).2 = Except.error "No plot available"
    ∧ (get_table_df ({} : Store) (some "v")).2 = Except.error "No table available"
    ∧ (get_artifact ({} : Store) (some "v")).2 = Except.error "No artifact available" :=
  c10_lookup_creates_view {} "v" (by decide) rfl


/-- C2.  Over the default renderer set with no hint, every string goes to
the first accepting renderer of the priority kinds python / traceback /
text / json — concretely the python renderer, since its `can_render`
accepts every str — so no hint-less string (in particular `"hello"`)
ever selects the html renderer; "may select it" for markup-looking
strings is the eligibility gate `_looks_like_html`, which rejects
`"hello"` and accepts `"<table><tr><td>x</td></tr></table>"`. -/
theorem c2_string_never_html :
    (∀ (renders : String → Obj → String → Option RenderResult) (s : String),
        ∃ r, choose_renderer (default_renderers renders) (Obj.pstr s) none = some r
          ∧ r.kind = "python")
    ∧ looks_like_html "hello" = false
    ∧ looks_like_html "<table><tr><td>x</td></tr></table>" = true := by
  refine ⟨?_, by decide, by decide⟩
  intro renders s
  exact ⟨{ kind := "python", canRender := pythonCanRender, render := renders "python" },
    rfl, rfl⟩


/-- Every selected renderer comes from the registered list. -/
theorem tryKinds_mem {rs : List Renderer} {obj : Obj} {ks : List String} {r : Renderer}
    (h : tryKinds rs obj ks = some r) : r ∈ rs := by
  induction ks with
  | nil => simp [tryKinds] at h
  | cons k ks ih =>
      unfold tryKinds at h
      cases hf : rs.find? (fun r => r.kind == k && r.canRender obj) with
      | some r' =>
          rw [hf] at h
          cases h
          exact List.mem_of_find?_eq_some hf
      | none =>
          rw [hf] at h
          exact ih h


theorem choose_renderer_nohint_mem {rs : List Renderer} {obj : Obj} {r : Renderer}
    (h : choose_renderer_nohint rs obj = some r) : r ∈ rs := by
  unfold choose_renderer_nohint at h
  cases obj with
  | pstr s =>
      dsimp only at h
      cases h1 : tryKinds rs (Obj.pstr s) ["python", "traceback", "text", "json"] with
      | some r' =>
          rw [h1] at h; cases h; exact tryKinds_mem h1
      | none =>
          rw [h1] at h
          cases h2 : (if looks_like_html s then
              rs.find? (fun r => r.kind == "html" && r.canRender (Obj.pstr s))
            else none) with
          | some r' =>
              rw [h2] at h
              cases h
              by_cases hh : looks_like_html s
              · rw [if_pos hh] at h2
                exact List.mem_of_find?_eq_some h2
              · rw [if_neg hh] at h2; cases h2
          | none =>
              rw [h2] at h
              cases h3 : rs.find? (fun r => r.kind != "html" && r.canRender (Obj.pstr s)) with
              | some r' =>
                  rw [h3] at h; cases h; exact List.mem_of_find?_eq_some h3
              | none =>
                  rw [h3] at h
                  exact List.mem_of_find?_eq_some h
  | pbytes bs => exact List.mem_of_find?_eq_some h
  | pint n => exact List.mem_of_find?_eq_some h
  | pbool b => exact List.mem_of_find?_eq_some h
  | pnone => exact List.mem_of_find?_eq_some h
  | pdict entries => exact List.mem_of_find?_eq_some h
  | plist items => exact List.mem_of_find?_eq_some h
  | pdf cols rows => exact List.mem_of_find?_eq_some h
  | raw tag => exact List.mem_of_find?_eq_some h


theorem choose_renderer_mem {rs : List Renderer} {obj : Obj} {hint : Option String}
    {r : Renderer} (h : choose_renderer rs obj hint = some r) : r ∈ rs := by
  unfold choose_renderer at h
  dsimp only at h
  cases hint with
  | some hstr =>
      dsimp only at h
      by_cases hh : hstr ≠ ""
      · rw [if_pos hh] at h
        cases hf : rs.find? (fun r => r.kind == hstr && r.canRender obj) with
        | some r' =>
            rw [hf] at h
            cases h
            exact List.mem_of_find?_eq_some hf
        | none =>
            rw [hf] at h
            exact choose_renderer_nohint_mem h
      · rw [if_neg hh] at h
        exact choose_renderer_nohint_mem h
  | none => exact choose_renderer_nohint_mem h


/-- Counterexample to C5 as stated: `render_any` has no guard around the
chosen renderer's `render`, so a registered renderer whose `render`
raises makes `render_any` propagate the exception (modelled as `none`). -/
theorem c5_counterexample :
    render_any (fun _ => "X()")
      [{ kind := "boom", canRender := fun _ => true, render := fun _ _ => none }]
      (Obj.pstr "x") "v" none = none := rfl


/-- C5 (amended).  `render_any` never raises by itself: whenever every
registered renderer's `render` is total — which the renderer contract of
the registry requires — it returns a RenderResult; and when no renderer
accepts the object it returns the `text` fallback whose html is the
HTML-escaped `repr` of the object with meta `fallback: true`.  An
exception raised inside the chosen renderer's `render`, however,
propagates to the caller. -/
theorem c5_render_any_total (pyRepr : Obj → String) (rs : List Renderer) (obj : Obj)
    (view_id : String) (hint : Option String)
    (htotal : ∀ r ∈ rs, ∀ (o : Obj) (vid : String), r.render o vid ≠ none) :
    (∃ rr, render_any pyRepr rs obj view_id hint = some rr)
    ∧ (choose_renderer rs obj hint = none →
        render_any pyRepr rs obj view_id hint =
          some { kind := "text", html := "<pre>" ++ escapeHtml (pyRepr obj) ++ "</pre>",
                 truncation := some { truncated := false },
                 meta := some [("fallback", Obj.pbool true)] }) := by
  cases hc : choose_renderer rs obj hint with
  | none =>
      constructor
      · exact ⟨_, by unfold render_any; rw [hc]⟩
      · intro _; unfold render_any; rw [hc]
  | some r =>
      constructor
      · have hmem := choose_renderer_mem hc
        have := htotal r hmem obj view_id
        cases hr : r.render obj view_id with
        | none => exact absurd hr this
        | some rr =>
            refine ⟨rr, ?_⟩
            unfold render_any
            rw [hc]
            exact hr
      · intro h0
        exact Option.noConfusion h0


/-- Witness for C5 (amended) on the empty registry, where the totality
hypothesis holds vacuously and the fallback fires. -/
theorem c5_render_any_total_witness :
    (∃ rr, render_any (fun _ => "X()") [] (Obj.raw "X()") "v" none = some rr)
    ∧ (choose_renderer [] (Obj.raw "X()") none = none →
        render_any (fun _ => "X()") [] (Obj.raw "X()") "v" none =
          some { kind := "text",
                 html := "<pre>" ++ escapeHtml "X()" ++ "</pre>",
                 truncation := some { truncated := false },
                 meta := some [("fallback", Obj.pbool true)] }) :=
  c5_render_any_total (fun _ => "X()") [] (Obj.raw "X()") "v" none
    (fun r hr => absurd hr (List.not_mem_nil r))


theorem startsWithSeq_append_self (p t : List Char) :
    startsWithSeq p (p ++ t) = true := by
  induction p with
  | nil => simp [startsWithSeq]
  | cons c cs ih => simp [startsWithSeq, ih]


theorem startsWithSeq_exists_suffix {p l : List Char}
    (h : startsWithSeq p l = true) : ∃ t, l = p ++ t := by
  induction p generalizing l with
  | nil => exact ⟨l, rfl⟩
  | cons c cs ih =>
      cases l with
      | nil => simp [startsWithSeq] at h
      | cons x xs =>
          simp only [startsWithSeq, Bool.and_eq_true, beq_iff_eq] at h
          obtain ⟨t, ht⟩ := ih h.2
          exact ⟨t, by simp [h.1, ht]⟩


theorem findNl_append_cons (H xs : List Char) (h : '\n' ∉ H) :
    findNl (H ++ '\n' :: xs) = some H.length := by
  induction H with
  | nil => simp [findNl]
  | cons c cs ih =>
      have hc : c ≠ '\n' := fun hh => h (hh ▸ List.mem_cons_self _ _)
      have hcs : '\n' ∉ cs := fun hh => h (List.mem_cons_of_mem _ hh)
      simp [findNl, hc, ih hcs]


theorem firstLine_of_header (H t : List Char) (h : '\n' ∉ H) :
    firstLine (H ++ '\n' :: t) = H := by
  induction H with
  | nil => simp [firstLine, List.takeWhile]
  | cons c cs ih =>
      have hc : c ≠ '\n' := fun hh => h (hh ▸ List.mem_cons_self _ _)
      have hcs : '\n' ∉ cs := fun hh => h (List.mem_cons_of_mem _ hh)
      simpa [firstLine, List.takeWhile, hc] using ih hcs


/-- Counterexample to C7 as stated: with file `"aaaa\nb\n"` (header line
`aaaa`) and tail budget 2, the head probe reads only `min(64000, 2)`
bytes, truncating the header to `aa`; the reconstruction is
`"aa\nb\n"`, which does not begin with the header line. -/
theorem c7_counterexample :
    readCsvTailWithHeaderBytes "aaaa\nb\n".data 2 = "aa\nb\n".data
    ∧ startsWithSeq "aaaa\n".data (readCsvTailWithHeaderBytes "aaaa\nb\n".data 2) = false := by
  constructor <;> decide


/-- C7 (amended).  For every file whose first line is the newline-free
header `H` and every tail byte budget whose head-probe window
`min(64000, max(1, budget))` covers `H` and its newline, the
reconstruction begins with exactly `H` followed by a newline — the tail
is returned unchanged when it already starts with the header, otherwise
the header is prefixed — so the first line of the reconstructed bytes
(the parsed table's column-name row) is exactly `H`. -/
theorem c7_tail_keeps_header (H rest : List Char) (maxBytes : Nat)
    (hH : '\n' ∉ H)
    (hfit : H.length + 1 ≤ min 64000 (max 1 maxBytes)) :
    startsWithSeq (H ++ ['\n']) (readCsvTailWithHeaderBytes (H ++ '\n' :: rest) maxBytes) = true
    ∧ firstLine (readCsvTailWithHeaderBytes (H ++ '\n' :: rest) maxBytes) = H := by
  have hchunk : (H ++ '\n' :: rest).take (min 64000 (max 1 maxBytes))
      = H ++ '\n' :: rest.take (min 64000 (max 1 maxBytes) - H.length - 1) := by
    rw [List.take_append_eq_append_take]
    rw [List.take_of_length_le (by omega)]
    congr 1
    have h1 : min 64000 (max 1 maxBytes) - H.length ≥ 1 := by omega
    cases hk : min 64000 (max 1 maxBytes) - H.length with
    | zero => omega
    | succ n => rfl
  have hheader :
      (match findNl ((H ++ '\n' :: rest).take (min 64000 (max 1 maxBytes))) with
       | none => (H ++ '\n' :: rest).take (min 64000 (max 1 maxBytes))
       | some nl => ((H ++ '\n' :: rest).take (min 64000 (max 1 maxBytes))).take (nl + 1))
      = H ++ ['\n'] := by
    rw [hchunk, findNl_append_cons _ _ hH]
    dsimp only
    rw [List.take_append_eq_append_take]
    rw [List.take_of_length_le (by omega)]
    have : H.length + 1 - H.length = 1 := by omega
    rw [this]
    rfl
  have hmain : startsWithSeq (H ++ ['\n'])
      (readCsvTailWithHeaderBytes (H ++ '\n' :: rest) maxBytes) = true := by
    unfold readCsvTailWithHeaderBytes
    dsimp only
    rw [hheader]
    by_cases hcond : (startsWithSeq (H ++ ['\n'])
        (readTailBytes (H ++ '\n' :: rest) (max 1 maxBytes))
        || readTailBytes (H ++ '\n' :: rest) (max 1 maxBytes) == H ++ ['\n']) = true
    · rw [if_pos hcond]
      rcases Bool.or_eq_true .. |>.mp hcond with hsw | heq
      · exact hsw
      · have := (beq_iff_eq ..).mp heq
        rw [this]
        simpa using startsWithSeq_append_self (H ++ ['\n']) []
    · rw [if_neg hcond]
      have hend : endsWithNl (H ++ ['\n']) = true := by
        unfold endsWithNl
        rw [List.getLast?_concat]
        rfl
      rw [hend]
      simp only [Bool.not_true, Bool.and_false, if_neg]
      exact startsWithSeq_append_self _ _
  refine ⟨hmain, ?_⟩
  obtain ⟨t, ht⟩ := startsWithSeq_exists_suffix hmain
  rw [ht, List.append_assoc]
  exact firstLine_of_header _ _ hH


theorem obj_sizeOf_pos (o : Obj) : 0 < sizeOf o := by
  cases o <;> simp_arith


theorem list_sizeOf_pos {α : Type} [SizeOf α] (l : List α) : 0 < sizeOf l := by
  cases l <;> simp_arith


/-- A node over the node budget renders as an ellipsis badge with no
descent: the context only gains the visit count and the truncation. -/
theorem renderNode_nodes_limit (pyStr : Obj → String) (obj : Obj) (ctx : JsonCtx)
    (depth : Nat) (label : String) (h : ctx.nodes + 1 > ctx.limits.max_nodes) :
    renderNode pyStr obj ctx depth label
      = (badge (label ++ ": …") "node limit",
         { limits := ctx.limits, nodes := ctx.nodes + 1, truncated := true,
           hit := some (ctx.hit.getD "max_nodes") }) := by
  rw [renderNode.eq_def]
  dsimp only
  rw [if_pos h]


/-- A node beyond the depth budget renders as an ellipsis badge with no
descent. -/
theorem renderNode_depth_limit (pyStr : Obj → String) (obj : Obj) (ctx : JsonCtx)
    (depth : Nat) (label : String) (h1 : ctx.nodes + 1 ≤ ctx.limits.max_nodes)
    (h2 : depth > ctx.limits.max_depth) :
    renderNode pyStr obj ctx depth label
      = (badge (label ++ ": …") "depth limit",
         { limits := ctx.limits, nodes := ctx.nodes + 1, truncated := true,
           hit := some (ctx.hit.getD "max_depth") }) := by
  rw [renderNode.eq_def]
  dsimp only
  rw [if_neg (by omega), if_pos h2]


/-- The walk preserves the limits and counts every visited node
(container or scalar) before recursing. -/
theorem render_ctx_laws (fuel : Nat) :
    (∀ (pyStr : Obj → String) (obj : Obj) (ctx : JsonCtx) (depth : Nat) (label : String),
        sizeOf obj ≤ fuel →
        (renderNode pyStr obj ctx depth label).2.limits = ctx.limits
        ∧ ctx.nodes + 1 ≤ (renderNode pyStr obj ctx depth label).2.nodes)
    ∧ (∀ (pyStr : Obj → String) (l : List (String × Obj)) (ctx : JsonCtx) (depth : Nat),
        sizeOf l ≤ fuel →
        (renderEntries pyStr l ctx depth).2.limits = ctx.limits
        ∧ ctx.nodes ≤ (renderEntries pyStr l ctx depth).2.nodes)
    ∧ (∀ (pyStr : Obj → String) (l : List Obj) (ctx : JsonCtx) (depth i : Nat),
        sizeOf l ≤ fuel →
        (renderItems pyStr l ctx depth i).2.limits = ctx.limits
        ∧ ctx.nodes ≤ (renderItems pyStr l ctx depth i).2.nodes) := by
  induction fuel with
  | zero =>
      refine ⟨fun pyStr obj ctx depth label hsz => ?_,
        fun pyStr l ctx depth hsz => ?_, fun pyStr l ctx depth i hsz => ?_⟩
      · exact absurd hsz (by have := obj_sizeOf_pos obj; omega)
      · exact absurd hsz (by have := list_sizeOf_pos l; omega)
      · exact absurd hsz (by have := list_sizeOf_pos l; omega)
  | succ n ih =>
      obtain ⟨ihN, ihE, ihI⟩ := ih
      have hEntriesCore : ∀ (pyStr : Obj → String) (entries : List (String × Obj))
          (ctx : JsonCtx) (depth : Nat) (label : String), sizeOf entries ≤ n →
          (renderDict pyStr entries ctx depth label).2.limits = ctx.limits
          ∧ ctx.nodes ≤ (renderDict pyStr entries ctx depth label).2.nodes := by
        intro pyStr entries ctx depth label hsz
        rw [renderDict.eq_def]
        dsimp only
        by_cases hcap : entries.length > ctx.limits.max_dict_items
        · rw [if_pos hcap, if_pos hcap]
          have hsz' : sizeOf (entries.take ctx.limits.max_dict_items) ≤ n :=
            le_trans (sizeOf_take_le _ _) hsz
          have h := ihE pyStr (entries.take ctx.limits.max_dict_items)
            { limits := ctx.limits, nodes := ctx.nodes, truncated := true,
              hit := some (ctx.hit.getD "max_dict_items") } depth hsz'
          exact ⟨h.1, h.2⟩
        · rw [if_neg hcap, if_neg hcap]
          exact ihE pyStr entries ctx depth hsz
      have hItemsCore : ∀ (pyStr : Obj → String) (items : List Obj)
          (ctx : JsonCtx) (depth : Nat) (label : String), sizeOf items ≤ n →
          (renderList pyStr items ctx depth label).2.limits = ctx.limits
          ∧ ctx.nodes ≤ (renderList pyStr items ctx depth label).2.nodes := by
        intro pyStr items ctx depth label hsz
        rw [renderList.eq_def]
        dsimp only
        by_cases hcap : items.length > ctx.limits.max_list_items
        · rw [if_pos hcap, if_pos hcap]
          have hsz' : sizeOf (items.take ctx.limits.max_list_items) ≤ n :=
            le_trans (sizeOf_take_le _ _) hsz
          have h := ihI pyStr (items.take ctx.limits.max_list_items)
            { limits := ctx.limits, nodes := ctx.nodes, truncated := true,
              hit := some (ctx.hit.getD "max_list_items") } depth 0 hsz'
          exact ⟨h.1, h.2⟩
        · rw [if_neg hcap, if_neg hcap]
          exact ihI pyStr items ctx depth 0 hsz
      refine ⟨?_, ?_, ?_⟩
      · -- renderNode
        intro pyStr obj ctx depth label hsz
        rw [renderNode.eq_def]
        dsimp only
        by_cases h1 : ctx.nodes + 1 > ctx.limits.max_nodes
        · rw [if_pos h1]
          exact ⟨rfl, le_refl _⟩
        · rw [if_neg h1]
          by_cases h2 : depth > ctx.limits.max_depth
          · rw [if_pos h2]
            exact ⟨rfl, le_refl _⟩
          · rw [if_neg h2]
            cases obj with
            | pdict entries =>
                have hsz' : sizeOf entries ≤ n := by
                  have : sizeOf (Obj.pdict entries) = 1 + sizeOf entries := by
                    simp_arith
                  omega
                have h := hEntriesCore pyStr entries
                  { limits := ctx.limits, nodes := ctx.nodes + 1,
                    truncated := ctx.truncated, hit := ctx.hit } depth label hsz'
                exact ⟨h.1, h.2⟩
            | plist items =>
                have hsz' : sizeOf items ≤ n := by
                  have : sizeOf (Obj.plist items) = 1 + sizeOf items := by
                    simp_arith
                  omega
                have h := hItemsCore pyStr items
                  { limits := ctx.limits, nodes := ctx.nodes + 1,
                    truncated := ctx.truncated, hit := ctx.hit } depth label hsz'
                exact ⟨h.1, h.2⟩
            | pstr s =>
                dsimp only
                split <;> exact ⟨rfl, le_refl _⟩
            | pbytes bs =>
                dsimp only
                split <;> exact ⟨rfl, le_refl _⟩
            | pint m =>
                dsimp only
                split <;> exact ⟨rfl, le_refl _⟩
            | pbool b =>
                dsimp only
                split <;> exact ⟨rfl, le_refl _⟩
            | pnone =>
                dsimp only
                split <;> exact ⟨rfl, le_refl _⟩
            | pdf a b =>
                dsimp only
                split <;> exact ⟨rfl, le_refl _⟩
            | raw t =>
                dsimp only
                split <;> exact ⟨rfl, le_refl _⟩
      · -- renderEntries
        intro pyStr l ctx depth hsz
        cases l with
        | nil =>
            rw [renderEntries.eq_def]
            exact ⟨rfl, le_refl _⟩
        | cons kv rest =>
            obtain ⟨k, v⟩ := kv
            rw [renderEntries.eq_def]
            dsimp only
            have hszv : sizeOf v ≤ n := by
              have : sizeOf ((k, v) :: rest)
                  = 1 + (1 + sizeOf k + sizeOf v) + sizeOf rest := by simp_arith
              have hr := list_sizeOf_pos rest
              omega
            have hszr : sizeOf rest ≤ n := by
              have : sizeOf ((k, v) :: rest)
                  = 1 + (1 + sizeOf k + sizeOf v) + sizeOf rest := by simp_arith
              have hv := obj_sizeOf_pos v
              omega
            have hN := ihN pyStr v ctx (depth + 1) k hszv
            split
            · exact ⟨hN.1, by dsimp only; omega⟩
            · have hE := ihE pyStr rest (renderNode pyStr v ctx (depth + 1) k).2 depth hszr
              exact ⟨hE.1.trans hN.1, by dsimp only; omega⟩
      · -- renderItems
        intro pyStr l ctx depth i hsz
        cases l with
        | nil =>
            rw [renderItems.eq_def]
            exact ⟨rfl, le_refl _⟩
        | cons v rest =>
            rw [renderItems.eq_def]
            dsimp only
            have hszv : sizeOf v ≤ n := by
              have : sizeOf (v :: rest) = 1 + sizeOf v + sizeOf rest := by simp_arith
              have hr := list_sizeOf_pos rest
              omega
            have hszr : sizeOf rest ≤ n := by
              have : sizeOf (v :: rest) = 1 + sizeOf v + sizeOf rest := by simp_arith
              have hv := obj_sizeOf_pos v
              omega
            have hN := ihN pyStr v ctx (depth + 1) ("[" ++ toString i ++ "]") hszv
            split
            · exact ⟨hN.1, by dsimp only; omega⟩
            · have hI := ihI pyStr rest
                (renderNode pyStr v ctx (depth + 1) ("[" ++ toString i ++ "]")).2
                depth (i + 1) hszr
              exact ⟨hI.1.trans hN.1, by dsimp only; omega⟩


/-- Once the walk has recorded a truncation it is never unrecorded. -/
theorem render_trunc_mono (fuel : Nat) :
    (∀ (pyStr : Obj → String) (obj : Obj) (ctx : JsonCtx) (depth : Nat) (label : String),
        sizeOf obj ≤ fuel → ctx.truncated = true →
        (renderNode pyStr obj ctx depth label).2.truncated = true)
    ∧ (∀ (pyStr : Obj → String) (l : List (String × Obj)) (ctx : JsonCtx) (depth : Nat),
        sizeOf l ≤ fuel → ctx.truncated = true →
        (renderEntries pyStr l ctx depth).2.truncated = true)
    ∧ (∀ (pyStr : Obj → String) (l : List Obj) (ctx : JsonCtx) (depth i : Nat),
        sizeOf l ≤ fuel → ctx.truncated = true →
        (renderItems pyStr l ctx depth i).2.truncated = true) := by
  induction fuel with
  | zero =>
      refine ⟨fun pyStr obj ctx depth label hsz _ => ?_,
        fun pyStr l ctx depth hsz _ => ?_, fun pyStr l ctx depth i hsz _ => ?_⟩
      · exact absurd hsz (by have := obj_sizeOf_pos obj; omega)
      · exact absurd hsz (by have := list_sizeOf_pos l; omega)
      · exact absurd hsz (by have := list_sizeOf_pos l; omega)
  | succ n ih =>
      obtain ⟨ihN, ihE, ihI⟩ := ih
      refine ⟨?_, ?_, ?_⟩
      · intro pyStr obj ctx depth label hsz htr
        rw [renderNode.eq_def]
        dsimp only
        by_cases h1 : ctx.nodes + 1 > ctx.limits.max_nodes
        · rw [if_pos h1]
        · rw [if_neg h1]
          by_cases h2 : depth > ctx.limits.max_depth
          · rw [if_pos h2]
          · rw [if_neg h2]
            cases obj with
            | pdict entries =>
                have hsz' : sizeOf entries ≤ n := by
                  have : sizeOf (Obj.pdict entries) = 1 + sizeOf entries := by simp_arith
                  omega
                dsimp only
                rw [renderDict.eq_def]
                dsimp only
                by_cases hcap : entries.length > ctx.limits.max_dict_items
                · rw [if_pos hcap, if_pos hcap]
                  exact ihE pyStr _ _ depth (le_trans (sizeOf_take_le _ _) hsz') rfl
                · rw [if_neg hcap, if_neg hcap]
                  exact ihE pyStr _ _ depth hsz' htr
            | plist items =>
                have hsz' : sizeOf items ≤ n := by
                  have : sizeOf (Obj.plist items) = 1 + sizeOf items := by simp_arith
                  omega
                dsimp only
                rw [renderList.eq_def]
                dsimp only
                by_cases hcap : items.length > ctx.limits.max_list_items
                · rw [if_pos hcap, if_pos hcap]
                  exact ihI pyStr _ _ depth 0 (le_trans (sizeOf_take_le _ _) hsz') rfl
                · rw [if_neg hcap, if_neg hcap]
                  exact ihI pyStr _ _ depth 0 hsz' htr
            | pstr s => dsimp only; split <;> simp [htr]
            | pbytes bs => dsimp only; split <;> simp [htr]
            | pint m => dsimp only; split <;> simp [htr]
            | pbool b => dsimp only; split <;> simp [htr]
            | pnone => dsimp only; split <;> simp [htr]
            | pdf a b => dsimp only; split <;> simp [htr]
            | raw t => dsimp only; split <;> simp [htr]
      · intro pyStr l ctx depth hsz htr
        cases l with
        | nil => rw [renderEntries.eq_def]; exact htr
        | cons kv rest =>
            obtain ⟨k, v⟩ := kv
            rw [renderEntries.eq_def]
            dsimp only
            have hszv : sizeOf v ≤ n := by
              have : sizeOf ((k, v) :: rest)
                  = 1 + (1 + sizeOf k + sizeOf v) + sizeOf rest := by simp_arith
              have hr := list_sizeOf_pos rest
              omega
            have hszr : sizeOf rest ≤ n := by
              have : sizeOf ((k, v) :: rest)
                  = 1 + (1 + sizeOf k + sizeOf v) + sizeOf rest := by simp_arith
              have hv := obj_sizeOf_pos v
              omega
            have hN := ihN pyStr v ctx (depth + 1) k hszv htr
            split
            · exact hN
            · exact ihE pyStr rest _ depth hszr hN
      · intro pyStr l ctx depth i hsz htr
        cases l with
        | nil => rw [renderItems.eq_def]; exact htr
        | cons v rest =>
            rw [renderItems.eq_def]
            dsimp only
            have hszv : sizeOf v ≤ n := by
              have : sizeOf (v :: rest) = 1 + sizeOf v + sizeOf rest := by simp_arith
              have hr := list_sizeOf_pos rest
              omega
            have hszr : sizeOf rest ≤ n := by
              have : sizeOf (v :: rest) = 1 + sizeOf v + sizeOf rest := by simp_arith
              have hv := obj_sizeOf_pos v
              omega
            have hN := ihN pyStr v ctx (depth + 1) ("[" ++ toString i ++ "]") hszv htr
            split
            · exact hN
            · exact ihI pyStr rest _ depth (i + 1) hszr hN


theorem objDepthEntries_attained : ∀ (l : List (String × Obj)),
    0 < objDepthEntries l → ∃ kv, kv ∈ l ∧ objDepthEntries l = 1 + objDepth kv.2 := by
  intro l
  induction l with
  | nil => intro h; rw [objDepthEntries] at h; omega
  | cons kv rest ih =>
      intro _
      obtain ⟨k, v⟩ := kv
      rw [objDepthEntries]
      rcases le_total (objDepthEntries rest) (1 + objDepth v) with hle | hle
      · exact ⟨(k, v), List.mem_cons_self _ _, (Nat.max_eq_left hle).symm ▸ rfl⟩
      · by_cases h0 : 0 < objDepthEntries rest
        · obtain ⟨kv', hmem, heq⟩ := ih h0
          refine ⟨kv', List.mem_cons_of_mem _ hmem, ?_⟩
          rw [Nat.max_eq_right hle, heq]
        · have : objDepthEntries rest = 0 := by omega
          refine ⟨(k, v), List.mem_cons_self _ _, ?_⟩
          rw [this] at hle
          have h1 : 1 + objDepth v = 0 := by omega
          omega


theorem objDepthItems_attained : ∀ (l : List Obj),
    0 < objDepthItems l → ∃ v, v ∈ l ∧ objDepthItems l = 1 + objDepth v := by
  intro l
  induction l with
  | nil => intro h; rw [objDepthItems] at h; omega
  | cons v rest ih =>
      intro _
      rw [objDepthItems]
      rcases le_total (objDepthItems rest) (1 + objDepth v) with hle | hle
      · exact ⟨v, List.mem_cons_self _ _, (Nat.max_eq_left hle).symm ▸ rfl⟩
      · by_cases h0 : 0 < objDepthItems rest
        · obtain ⟨v', hmem, heq⟩ := ih h0
          refine ⟨v', List.mem_cons_of_mem _ hmem, ?_⟩
          rw [Nat.max_eq_right hle, heq]
        · have : objDepthItems rest = 0 := by omega
          refine ⟨v, List.mem_cons_self _ _, ?_⟩
          rw [this] at hle
          omega


/-- A subtree that nests past the depth budget always records a
truncation. -/
theorem render_deep_trunc (fuel : Nat) :
    (∀ (pyStr : Obj → String) (obj : Obj) (ctx : JsonCtx) (depth : Nat) (label : String),
        sizeOf obj ≤ fuel → ctx.limits.max_depth < objDepth obj + depth →
        (renderNode pyStr obj ctx depth label).2.truncated = true)
    ∧ (∀ (pyStr : Obj → String) (l : List (String × Obj)) (ctx : JsonCtx) (depth : Nat),
        sizeOf l ≤ fuel →
        (∃ kv, kv ∈ l ∧ ctx.limits.max_depth < objDepth kv.2 + (depth + 1)) →
        (renderEntries pyStr l ctx depth).2.truncated = true)
    ∧ (∀ (pyStr : Obj → String) (l : List Obj) (ctx : JsonCtx) (depth i : Nat),
        sizeOf l ≤ fuel →
        (∃ v, v ∈ l ∧ ctx.limits.max_depth < objDepth v + (depth + 1)) →
        (renderItems pyStr l ctx depth i).2.truncated = true) := by
  induction fuel with
  | zero =>
      refine ⟨fun pyStr obj ctx depth label hsz _ => ?_,
        fun pyStr l ctx depth hsz _ => ?_, fun pyStr l ctx depth i hsz _ => ?_⟩
      · exact absurd hsz (by have := obj_sizeOf_pos obj; omega)
      · exact absurd hsz (by have := list_sizeOf_pos l; omega)
      · exact absurd hsz (by have := list_sizeOf_pos l; omega)
  | succ n ih =>
      obtain ⟨ihN, ihE, ihI⟩ := ih
      refine ⟨?_, ?_, ?_⟩
      · intro pyStr obj ctx depth label hsz hdeep
        rw [renderNode.eq_def]
        dsimp only
        by_cases h1 : ctx.nodes + 1 > ctx.limits.max_nodes
        · rw [if_pos h1]
        · rw [if_neg h1]
          by_cases h2 : depth > ctx.limits.max_depth
          · rw [if_pos h2]
          · rw [if_neg h2]
            cases obj with
            | pdict entries =>
                have hsz' : sizeOf entries ≤ n := by
                  have : sizeOf (Obj.pdict entries) = 1 + sizeOf entries := by simp_arith
                  omega
                have hd : ctx.limits.max_depth < objDepthEntries entries + depth := by
                  rw [objDepth.eq_def] at hdeep
                  exact hdeep
                have hpos : 0 < objDepthEntries entries := by omega
                obtain ⟨kv, hmem, hatt⟩ := objDepthEntries_attained entries hpos
                dsimp only
                rw [renderDict.eq_def]
                dsimp only
                by_cases hcap : entries.length > ctx.limits.max_dict_items
                · rw [if_pos hcap, if_pos hcap]
                  exact (render_trunc_mono n).2.1 pyStr _ _ depth
                    (le_trans (sizeOf_take_le _ _) hsz') rfl
                · rw [if_neg hcap, if_neg hcap]
                  exact ihE pyStr entries _ depth hsz'
                    ⟨kv, hmem, by dsimp only; omega⟩
            | plist items =>
                have hsz' : sizeOf items ≤ n := by
                  have : sizeOf (Obj.plist items) = 1 + sizeOf items := by simp_arith
                  omega
                have hd : ctx.limits.max_depth < objDepthItems items + depth := by
                  rw [objDepth.eq_def] at hdeep
                  exact hdeep
                have hpos : 0 < objDepthItems items := by omega
                obtain ⟨v, hmem, hatt⟩ := objDepthItems_attained items hpos
                dsimp only
                rw [renderList.eq_def]
                dsimp only
                by_cases hcap : items.length > ctx.limits.max_list_items
                · rw [if_pos hcap, if_pos hcap]
                  exact (render_trunc_mono n).2.2 pyStr _ _ depth 0
                    (le_trans (sizeOf_take_le _ _) hsz') rfl
                · rw [if_neg hcap, if_neg hcap]
                  exact ihI pyStr items _ depth 0 hsz'
                    ⟨v, hmem, by dsimp only; omega⟩
            | pstr s =>
                rw [objDepth.eq_def] at hdeep
                dsimp only at hdeep
                exact absurd hdeep (by omega)
            | pbytes bs =>
                rw [objDepth.eq_def] at hdeep
                dsimp only at hdeep
                exact absurd hdeep (by omega)
            | pint m =>
                rw [objDepth.eq_def] at hdeep
                dsimp only at hdeep
                exact absurd hdeep (by omega)
            | pbool b =>
                rw [objDepth.eq_def] at hdeep
                dsimp only at hdeep
                exact absurd hdeep (by omega)
            | pnone =>
                rw [objDepth.eq_def] at hdeep
                dsimp only at hdeep
                exact absurd hdeep (by omega)
            | pdf a b =>
                rw [objDepth.eq_def] at hdeep
                dsimp only at hdeep
                exact absurd hdeep (by omega)
            | raw t =>
                rw [objDepth.eq_def] at hdeep
                dsimp only at hdeep
                exact absurd hdeep (by omega)
      · intro pyStr l ctx depth hsz hex
        obtain ⟨kv0, hmem, hdeep⟩ := hex
        cases l with
        | nil => exact absurd hmem (List.not_mem_nil _)
        | cons kv rest =>
            obtain ⟨k, v⟩ := kv
            rw [renderEntries.eq_def]
            dsimp only
            have hszv : sizeOf v ≤ n := by
              have : sizeOf ((k, v) :: rest)
                  = 1 + (1 + sizeOf k + sizeOf v) + sizeOf rest := by simp_arith
              have hr := list_sizeOf_pos rest
              omega
            have hszr : sizeOf rest ≤ n := by
              have : sizeOf ((k, v) :: rest)
                  = 1 + (1 + sizeOf k + sizeOf v) + sizeOf rest := by simp_arith
              have hv := obj_sizeOf_pos v
              omega
            split
            · next hbr => exact hbr.1
            · next hbr =>
                rcases List.mem_cons.mp hmem with heq | hmem'
                · have hN : (renderNode pyStr v ctx (depth + 1) k).2.truncated = true := by
                    apply ihN pyStr v ctx (depth + 1) k hszv
                    rw [heq] at hdeep
                    try dsimp only at hdeep
                    omega
                  exact (render_trunc_mono n).2.1 pyStr rest _ depth hszr hN
                · apply ihE pyStr rest _ depth hszr
                  refine ⟨kv0, hmem', ?_⟩
                  have hlim := ((render_ctx_laws (sizeOf v)).1 pyStr v ctx (depth + 1) k
                    (le_refl _)).1
                  rw [hlim]
                  exact hdeep
      · intro pyStr l ctx depth i hsz hex
        obtain ⟨v0, hmem, hdeep⟩ := hex
        cases l with
        | nil => exact absurd hmem (List.not_mem_nil _)
        | cons v rest =>
            rw [renderItems.eq_def]
            dsimp only
            have hszv : sizeOf v ≤ n := by
              have : sizeOf (v :: rest) = 1 + sizeOf v + sizeOf rest := by simp_arith
              have hr := list_sizeOf_pos rest
              omega
            have hszr : sizeOf rest ≤ n := by
              have : sizeOf (v :: rest) = 1 + sizeOf v + sizeOf rest := by simp_arith
              have hv := obj_sizeOf_pos v
              omega
            split
            · next hbr => exact hbr.1
            · next hbr =>
                rcases List.mem_cons.mp hmem with heq | hmem'
                · have hN : (renderNode pyStr v ctx (depth + 1)
                      ("[" ++ toString i ++ "]")).2.truncated = true := by
                    apply ihN pyStr v ctx (depth + 1) _ hszv
                    rw [heq] at hdeep
                    try dsimp only at hdeep
                    omega
                  exact (render_trunc_mono n).2.2 pyStr rest _ depth (i + 1) hszr hN
                · apply ihI pyStr rest _ depth (i + 1) hszr
                  refine ⟨v0, hmem', ?_⟩
                  have hlim := ((render_ctx_laws (sizeOf v)).1 pyStr v ctx (depth + 1)
                    ("[" ++ toString i ++ "]") (le_refl _)).1
                  rw [hlim]
                  exact hdeep


theorem objDepth_nestList (n : Nat) : objDepth (nestList n) = n := by
  induction n with
  | zero => rw [nestList, objDepth.eq_def]
  | succ m ih =>
      rw [nestList, objDepth.eq_def]
      dsimp only
      rw [objDepthItems, objDepthItems]
      omega


/-- C6.  With `max_depth = 5` (other limits default), rendering any
JSON-like tree nested 20 levels deep yields a truncation record with
`truncated = true`; the walk counts every visited node (container or
scalar) before recursing; and a node beyond the depth budget (in
particular any node deeper than 5) is emitted as an ellipsis badge,
with the context showing exactly one counted visit and no descent into
its children. -/
theorem c6_json_depth_truncation :
    (∀ (pyStr : Obj → String) (t : Obj) (viewId : String),
        objDepth t = 20 →
        ∃ tr, (jsonTreeRender pyStr { DEFAULT_JSON_LIMITS with max_depth := 5 } t
            viewId).truncation = some tr
          ∧ tr.truncated = true ∧ tr.reason = some "json tree truncated by limits")
    ∧ (∀ (pyStr : Obj → String) (obj : Obj) (ctx : JsonCtx) (depth : Nat) (label : String),
        depth > ctx.limits.max_depth →
        ∃ reason ctx', renderNode pyStr obj ctx depth label
            = (badge (label ++ ": …") reason, ctx')
          ∧ ctx'.truncated = true ∧ ctx'.nodes = ctx.nodes + 1)
    ∧ (∀ (pyStr : Obj → String) (obj : Obj) (ctx : JsonCtx) (depth : Nat) (label : String),
        ctx.nodes + 1 ≤ (renderNode pyStr obj ctx depth label).2.nodes) := by
  refine ⟨?_, ?_, ?_⟩
  · intro pyStr t viewId hdepth
    have htr : (renderNode pyStr t
        { limits := { DEFAULT_JSON_LIMITS with max_depth := 5 } } 0 "root").2.truncated
        = true := by
      apply (render_deep_trunc (sizeOf t)).1 pyStr t _ 0 "root" (le_refl _)
      rw [hdepth]
      norm_num
    unfold jsonTreeRender
    dsimp only
    rw [if_pos htr]
    exact ⟨_, rfl, rfl, rfl⟩
  · intro pyStr obj ctx depth label h2
    by_cases h1 : ctx.nodes + 1 > ctx.limits.max_nodes
    · exact ⟨"node limit", _, renderNode_nodes_limit pyStr obj ctx depth label h1,
        rfl, rfl⟩
    · exact ⟨"depth limit", _,
        renderNode_depth_limit pyStr obj ctx depth label (by omega) h2, rfl, rfl⟩
  · intro pyStr obj ctx depth label
    exact ((render_ctx_laws (sizeOf obj)).1 pyStr obj ctx depth label (le_refl _)).2


/-- Witness for C6 on a 20-deep chain of singleton lists, a scalar
at depth 6, and a scalar at depth 0. -/
theorem c6_json_depth_truncation_witness :
    (∃ tr, (jsonTreeRender (fun _ => "s") { DEFAULT_JSON_LIMITS with max_depth := 5 }
        (nestList 20) "v").truncation = some tr
      ∧ tr.truncated = true ∧ tr.reason = some "json tree truncated by limits")
    ∧ (∃ reason ctx', renderNode (fun _ => "s") (Obj.pstr "hi")
          { limits := { DEFAULT_JSON_LIMITS with max_depth := 5 }, nodes := 0,
            truncated := false, hit := none } 6 "lbl"
          = (badge ("lbl" ++ ": …") reason, ctx')
        ∧ ctx'.truncated = true ∧ ctx'.nodes = 0 + 1)
    ∧ (0 + 1 ≤ (renderNode (fun _ => "s") (Obj.pstr "hi")
        { limits := DEFAULT_JSON_LIMITS, nodes := 0, truncated := false, hit := none }
        0 "lbl").2.nodes) :=
  ⟨c6_json_depth_truncation.1 (fun _ => "s") (nestList 20) "v" (objDepth_nestList 20),
   c6_json_depth_truncation.2.1 (fun _ => "s") (Obj.pstr "hi")
     { limits := { DEFAULT_JSON_LIMITS with max_depth := 5 }, nodes := 0,
       truncated := false, hit := none } 6 "lbl" (by decide),
   c6_json_depth_truncation.2.2 (fun _ => "s") (Obj.pstr "hi")
     { limits := DEFAULT_JSON_LIMITS, nodes := 0, truncated := false, hit := none }
     0 "lbl"⟩


/-- Witness for C7 (amended): header `a,b,c`, three data rows, budget 8
(covering roughly the last row and a half). -/
theorem sameContent_refl (a : ViewState) : sameContent a a :=
  ⟨rfl, rfl, rfl, rfl, rfl, rfl, rfl, rfl⟩


theorem sameContent_of_eq {a b : ViewState} (h : a = b) : sameContent a b :=
  h ▸ sameContent_refl a


theorem sameContent_trans {a b c : ViewState} (h1 : sameContent a b)
    (h2 : sameContent b c) : sameContent a c := by
  obtain ⟨k1, p1, d1, h1', t1, r1, a1, s1⟩ := h1
  obtain ⟨k2, p2, d2, h2', t2, r2, a2, s2⟩ := h2
  exact ⟨k1.trans k2, p1.trans p2, d1.trans d2, h1'.trans h2', t1.trans t2,
    r1.trans r2, a1.trans a2, s1.trans s2⟩


/-- Registration with kind `"none"` (the auto-registration performed by
`publish` before validation) leaves every view's state unchanged. -/
theorem register_view_none_getVS (st : Store) (view_id section_ label : Option String)
    (aif : Bool) (id : String) :
    getVS (register_view st view_id section_ label "none" aif).1 id = getVS st id := by
  by_cases h : id = normalize_view_id view_id section_ label
  · subst h
    rw [register_view_getVS, if_neg (by decide)]
  · exact register_view_getVS_other _ _ _ _ _ _ _ h


/-- The throttle gate touches only `last_publish_at`. -/
theorem sap_sameContent (st : Store) (vid : String) (lim : Option Int) (now : ℚ)
    (id : String) :
    sameContent (getVS (should_accept_publish st vid lim now).1 id) (getVS st id) := by
  cases lim with
  | none => exact sameContent_refl _
  | some L =>
      unfold should_accept_publish
      dsimp only
      cases hlast : (getVS (ensureView st (resolveVid st (some vid)))
          (resolveVid st (some vid))).last_publish_at with
      | none =>
          dsimp only
          by_cases h : id = resolveVid st (some vid)
          · rw [h, getVS_setView_same]
            have he := getVS_ensureView st (resolveVid st (some vid))
            exact ⟨by rw [← he], by rw [← he], by rw [← he], by rw [← he], by rw [← he],
              by rw [← he], by rw [← he], by rw [← he]⟩
          · rw [getVS_setView_other _ _ _ _ h, getVS_ensureView_other _ _ _ h]
            exact sameContent_refl _
      | some t =>
          dsimp only
          by_cases hge : now - t ≥ (L : ℚ)
          · rw [if_pos hge]
            by_cases h : id = resolveVid st (some vid)
            · rw [h, getVS_setView_same]
              have he := getVS_ensureView st (resolveVid st (some vid))
              exact ⟨by rw [← he], by rw [← he], by rw [← he], by rw [← he], by rw [← he],
                by rw [← he], by rw [← he], by rw [← he]⟩
            · rw [getVS_setView_other _ _ _ _ h, getVS_ensureView_other _ _ _ h]
              exact sameContent_refl _
          · rw [if_neg hge]
            by_cases h : id = resolveVid st (some vid)
            · rw [h]
              exact sameContent_of_eq (getVS_ensureView _ _)
            · exact sameContent_of_eq (getVS_ensureView_other _ _ _ h)


/-- Counterexample to C4 as stated: a kind='plot' payload with no
`plot_png_b64` and a throttle window is rejected with 422, but the store
is not left as it was: the view `default:default` has been created and
its throttle clock armed at `now_s` before validation ran. -/
theorem c4_counterexample :
    (publish ({} : Store)
        { kind := some "plot", update_limit_s := some 600 } 100 "iso" "c"
        (fun _ => none)).1
      = Except.error { status := 422, detail := "publish: plot_png_b64 is required for kind='plot'" }
    ∧ alistGet (publish ({} : Store)
        { kind := some "plot", update_limit_s := some 600 } 100 "iso" "c"
        (fun _ => none)).2.views "default:default"
      = some { last_publish_at := some 100 } := by
  constructor <;> rfl


/-- C4 (amended).  A publish whose payload has a valid top-level kind
but fails kind-specific shape validation, and which is not throttled, is
rejected with a 422 client error before any content write: the returned
store is exactly the store after the two pre-validation steps (the
auto-registration with kind `"none"` and the throttle gate), and every
view's kind, content and status are exactly as before the request — only
the auto-registered view's existence, its metadata and the throttle
clock may differ. -/
theorem c4_publish_shape_error (st : Store) (p : PublishPayload) (now : ℚ)
    (nowIso createdAt : String) (b64d : String → Option (List Nat))
    (vid : String) (preSt : Store)
    (hvid : vid = normalize_view_id p.view_id p.section_ p.label)
    (hpre : preSt =
      (if p.force then (register_view st (some vid) p.section_ p.label "none" false).1
       else (should_accept_publish
         (register_view st (some vid) p.section_ p.label "none" false).1 vid
         p.update_limit_s now).1))
    (hshape : shapeFails p b64d)
    (hgate : p.force = true ∨
      (should_accept_publish
        (register_view st (some vid) p.section_ p.label "none" false).1 vid
        p.update_limit_s now).2 = true) :
    (∃ e, publish st p now nowIso createdAt b64d = (Except.error e, preSt)
       ∧ e.status = 422)
    ∧ ∀ id, sameContent (getVS preSt id) (getVS st id) := by
  subst hvid
  have hcontent : ∀ id, sameContent (getVS preSt id) (getVS st id) := by
    intro id
    subst hpre
    cases hf : p.force with
    | true =>
        rw [if_pos rfl]
        exact sameContent_of_eq (register_view_none_getVS _ _ _ _ _ _)
    | false =>
        rw [if_neg (by simp)]
        exact sameContent_trans (sap_sameContent _ _ _ _ _)
          (sameContent_of_eq (register_view_none_getVS _ _ _ _ _ _))
  refine ⟨?_, hcontent⟩
  have hkind3 : pubKind p = "plot" ∨ pubKind p = "table" ∨ pubKind p = "artifact" := by
    rcases hshape with ⟨h, _⟩ | ⟨h, _⟩ | ⟨h, _⟩ <;> simp [h]
  unfold publish
  dsimp only
  rw [if_neg (not_not_intro hkind3)]
  have hgateSt : (if p.force then
        ((register_view st (some (normalize_view_id p.view_id p.section_ p.label))
           p.section_ p.label "none" false).1, true)
      else should_accept_publish
        (register_view st (some (normalize_view_id p.view_id p.section_ p.label))
          p.section_ p.label "none" false).1
        (normalize_view_id p.view_id p.section_ p.label) p.update_limit_s now).2
      = true := by
    cases hf : p.force with
    | true => rw [if_pos rfl]
    | false =>
        rw [if_neg (by simp)]
        rcases hgate with hgate | hgate
        · rw [hf] at hgate; cases hgate
        · exact hgate
  rw [if_neg (not_not_intro hgateSt)]
  have hpre' : preSt =
      (if p.force then
        ((register_view st (some (normalize_view_id p.view_id p.section_ p.label))
           p.section_ p.label "none" false).1, true)
      else should_accept_publish
        (register_view st (some (normalize_view_id p.view_id p.section_ p.label))
          p.section_ p.label "none" false).1
        (normalize_view_id p.view_id p.section_ p.label) p.update_limit_s now).1 := by
    rw [hpre]
    cases hf : p.force with
    | true => rw [if_pos rfl, if_pos rfl]
    | false => rw [if_neg (by simp), if_neg (by simp)]
  rw [← hpre']
  rcases hshape with ⟨hk, hb⟩ | ⟨hk, hb⟩ | ⟨hk, hb⟩
  · -- plot
    rw [if_pos hk]
    rcases hb with hnone | hempty | ⟨s, hs, hsne, hsdec⟩
    · rw [hnone]
      exact ⟨_, rfl, rfl⟩
    · rw [hempty]
      dsimp only
      rw [if_pos rfl]
      exact ⟨_, rfl, rfl⟩
    · rw [hs]
      dsimp only
      rw [if_neg hsne, hsdec]
      exact ⟨_, rfl, rfl⟩
  · -- table: pubKind is "table", not "plot" or "artifact"
    have hnp : ¬ pubKind p = "plot" := by rw [hk]; decide
    have hna : ¬ pubKind p = "artifact" := by rw [hk]; decide
    rw [if_neg hnp, if_neg hna]
    unfold tableShapeBad at hb
    cases htab : p.table with
    | none => exact ⟨_, rfl, rfl⟩
    | some o =>
        cases o with
        | pdict entries =>
            rw [htab] at hb
            dsimp only
            cases hcols : alistGet entries "columns" with
            | none => exact ⟨_, rfl, rfl⟩
            | some c =>
                cases c with
                | plist cols =>
                    dsimp only
                    cases hrows : alistGet entries "rows" with
                    | none => exact ⟨_, rfl, rfl⟩
                    | some r =>
                        cases r with
                        | plist rows =>
                            exfalso
                            rcases hb with hb | hb
                            · exact hb ⟨cols, hcols⟩
                            · exact hb ⟨rows, hrows⟩
                        | pstr s => exact ⟨_, rfl, rfl⟩
                        | pbytes bs => exact ⟨_, rfl, rfl⟩
                        | pint n => exact ⟨_, rfl, rfl⟩
                        | pbool b => exact ⟨_, rfl, rfl⟩
                        | pnone => exact ⟨_, rfl, rfl⟩
                        | pdict e2 => exact ⟨_, rfl, rfl⟩
                        | pdf a b => exact ⟨_, rfl, rfl⟩
                        | raw t => exact ⟨_, rfl, rfl⟩
                | pstr s => exact ⟨_, rfl, rfl⟩
                | pbytes bs => exact ⟨_, rfl, rfl⟩
                | pint n => exact ⟨_, rfl, rfl⟩
                | pbool b => exact ⟨_, rfl, rfl⟩
                | pnone => exact ⟨_, rfl, rfl⟩
                | pdict e2 => exact ⟨_, rfl, rfl⟩
                | pdf a b => exact ⟨_, rfl, rfl⟩
                | raw t => exact ⟨_, rfl, rfl⟩
        | pstr s => exact ⟨_, rfl, rfl⟩
        | pbytes bs => exact ⟨_, rfl, rfl⟩
        | pint n => exact ⟨_, rfl, rfl⟩
        | pbool b => exact ⟨_, rfl, rfl⟩
        | pnone => exact ⟨_, rfl, rfl⟩
        | plist items => exact ⟨_, rfl, rfl⟩
        | pdf a b => exact ⟨_, rfl, rfl⟩
        | raw t => exact ⟨_, rfl, rfl⟩
  · -- artifact
    have hnp : ¬ pubKind p = "plot" := by rw [hk]; decide
    rw [if_neg hnp, if_pos hk]
    cases hak : p.artifact_kind with
    | none => exact ⟨_, rfl, rfl⟩
    | some o =>
        cases o with
        | pstr s =>
            dsimp only
            by_cases hst : strTrim s = ""
            · rw [if_pos hst]
              exact ⟨_, rfl, rfl⟩
            · exfalso
              exact hb ⟨s, by rw [hak], hst⟩
        | pbytes bs => exact ⟨_, rfl, rfl⟩
        | pint n => exact ⟨_, rfl, rfl⟩
        | pbool b => exact ⟨_, rfl, rfl⟩
        | pnone => exact ⟨_, rfl, rfl⟩
        | pdict e2 => exact ⟨_, rfl, rfl⟩
        | plist items => exact ⟨_, rfl, rfl⟩
        | pdf a b => exact ⟨_, rfl, rfl⟩
        | raw t => exact ⟨_, rfl, rfl⟩


/-- Witness for C4 (amended) on the empty store with the counterexample
payload (plot kind, missing `plot_png_b64`, window 600). -/
theorem c4_publish_shape_error_witness :
    ((∃ e, publish ({} : Store)
        { kind := some "plot", update_limit_s := some 600 } 100 "iso" "c" (fun _ => none)
        = (Except.error e,
           (should_accept_publish
             (register_view ({} : Store) (some "default:default") none none "none" false).1
             "default:default" (some 600) 100).1)
       ∧ e.status = 422)
     ∧ ∀ id, sameContent
        (getVS (should_accept_publish
          (register_view ({} : Store) (some "default:default") none none "none" false).1
          "default:default" (some 600) 100).1 id)
        (getVS ({} : Store) id)) :=
  c4_publish_shape_error {} { kind := some "plot", update_limit_s := some 600 } 100
    "iso" "c" (fun _ => none) "default:default"
    (should_accept_publish
      (register_view ({} : Store) (some "default:default") none none "none" false).1
      "default:default" (some 600) 100).1
    rfl rfl (Or.inl ⟨rfl, Or.inl rfl⟩) (Or.inr rfl)


theorem c7_tail_keeps_header_witness :
    startsWithSeq ("a,b,c".data ++ ['\n'])
      (readCsvTailWithHeaderBytes ("a,b,c".data ++ '\n' :: "1,2,3\n4,5,6\n7,8,9\n".data) 8)
      = true
    ∧ firstLine (readCsvTailWithHeaderBytes
        ("a,b,c".data ++ '\n' :: "1,2,3\n4,5,6\n7,8,9\n".data) 8) = "a,b,c".data :=
  c7_tail_keeps_header "a,b,c".data "1,2,3\n4,5,6\n7,8,9\n".data 8 (by decide) (by decide)


end Plotsrv
